import Mathlib

/-!
# Verification of the EchoAgent orchestration core

A shallow embedding, in Lean 4, of the EchoAgent repository's orchestration
loop, intention resolver, tool registry/manager, MCP connection manager, and
conversation state/persistence layer, together with theorems settling the
frozen claims about them.

Python values that cross these interfaces are modelled by a small `Json`
type (Python `dict` ≈ `Json.obj` over an insertion-ordered association list,
which is exactly CPython's dict semantics).  Machinery external to the
repository (the LLM, prompt text, the MCP transport, `json.dumps`/`loads`)
enters as explicit oracle parameters; helper functions of the repository
whose source files are absent (`tools_agent/json_tool.py`,
`tools_agent/function_call_toolbox.py`) are modelled from the spec and
marked as such in their doc comments.
-/

namespace EchoAgent

/-- A JSON value, modelling the Python values flowing through the agent.
Python dicts are insertion-ordered association lists (CPython semantics);
numbers are modelled as integers (no claim depends on floats). -/
inductive Json where
  | null : Json
  | bool (b : Bool) : Json
  | num (n : Int) : Json
  | str (s : String) : Json
  | arr (xs : List Json) : Json
  | obj (kvs : List (String × Json)) : Json

namespace Dict

variable {α : Type}

/-- `d.get(k)` on a Python dict: first binding of `k` (dict keys are unique). -/
def lookup (k : String) : List (String × α) → Option α
  | [] => none
  | (k', v) :: rest => if k' = k then some v else lookup k rest

/-- `k in d` on a Python dict. -/
def contains (k : String) (d : List (String × α)) : Bool :=
  (lookup k d).isSome

/-- `del d[k]` (also used for the copy-then-delete idiom): removes every
binding of `k`, keeping order of the rest. -/
def erase (k : String) (d : List (String × α)) : List (String × α) :=
  d.filter (fun kv => kv.1 ≠ k)

/-- The keys of a dict, in insertion order. -/
def keys (d : List (String × α)) : List String :=
  d.map Prod.fst

/-- `d[k] = v` on a Python dict: overwrite in place if `k` is present,
append at the end otherwise. -/
def assign (k : String) (v : α) (d : List (String × α)) : List (String × α) :=
  if contains k d then d.map (fun kv => if kv.1 = k then (k, v) else kv)
  else d ++ [(k, v)]

/-- Python `{**a, **b}`: keys of `a` keep their position (values overridden
by `b` where present), keys of `b` not in `a` are appended in `b`'s order. -/
def union (a b : List (String × α)) : List (String × α) :=
  a.map (fun kv => (kv.1, (lookup kv.1 b).getD kv.2)) ++
    b.filter (fun kv => ! contains kv.1 a)

end Dict

/-! ## Intention resolution (`EchoAgent._parse_intention_result`, agent_frame.py) -/

/-- `EchoAgent.STOP_SIGNAL` (agent_frame.py): the v1 terminate marker. -/
def STOP_SIGNAL : String := "END()"

/-- `EchoAgent.STOP_SIGNAL_V2` (agent_frame.py): the v2 terminate marker. -/
def STOP_SIGNAL_V2 : String := "FINAL_ANS"

/-- The stop-signal list `[self.STOP_SIGNAL]` the resolver degrades to. -/
def stopList : List Json := [Json.str STOP_SIGNAL]

/-- `EchoAgent._parse_intention_result` (agent_frame.py), embedded over the
outcome of `get_json(raw_response)`.  `get_json` lives in
`tools_agent/json_tool.py`, which is not part of the sources; per the spec it
performs lenient extraction of the structured fragment, so its outcome is
taken as the input here: `Except.error` for a raised extraction failure
(malformed input), `Except.ok j` for a successfully extracted value `j`.

The code then: returns the stop list if the value is not a dict; reads
`tools` with default `[self.STOP_SIGNAL]`; returns the stop list if `tools`
is not a list or is empty; otherwise returns the list unchanged (the
Pydantic `IntentionResultModel` validation either returns the same strings
or, on failure, the raw list is used — elements are unchanged either way).
The enclosing `try`/`except` turns any raised error into the stop list. -/
def parse_intention_result (getJsonOutcome : Except Unit Json) : List Json :=
  match getJsonOutcome with
  | .error _ => stopList
  | .ok j =>
    match j with
    | Json.obj kvs =>
      let tools := (Dict.lookup "tools" kvs).getD (Json.arr stopList)
      match tools with
      | Json.arr [] => stopList
      | Json.arr xs => xs
      | _ => stopList
    | _ => stopList

/-- The resolver-level failure cases named by claim C1: extraction raised,
the decoded value is not a dict, the `tools` field is not a list, or the
`tools` field is an empty list. -/
def resolverFailure (r : Except Unit Json) : Bool :=
  match r with
  | .error _ => true
  | .ok j =>
    match j with
    | Json.obj kvs =>
      match (Dict.lookup "tools" kvs).getD (Json.arr stopList) with
      | Json.arr xs => xs.isEmpty
      | _ => true
    | _ => true

/-- Is a Json value `None`? (decidable test used for Pydantic's
`exclude_none`). -/
def Json.isNull : Json → Bool
  | Json.null => true
  | _ => false

/-- Models Python `str(value)` on a decoded JSON value, as used by
`str(tool_result)` when appending a tool observation.  The exact rendering
(quotes, spacing) is not load-bearing for any claim; strings pass through
unchanged as in Python. -/
def jsonToStr : Json → String
  | .null => "None"
  | .bool b => if b then "True" else "False"
  | .num n => toString n
  | .str s => s
  | .arr xs => "[" ++ ", ".intercalate (xs.attach.map (fun x => jsonToStr x.1)) ++ "]"
  | .obj kvs =>
      "\x7b" ++ ", ".intercalate (kvs.attach.map (fun kv => kv.1.1 ++ ": " ++ jsonToStr kv.1.2)) ++ "\x7d"
termination_by j => sizeOf j
decreasing_by
  · have h := List.sizeOf_lt_of_mem x.2
    simp only [Json.arr.sizeOf_spec]
    omega
  · have h := List.sizeOf_lt_of_mem kv.2
    have h2 : sizeOf kv.1.2 < sizeOf kv.1 := by
      obtain ⟨⟨a, b⟩, hm⟩ := kv
      simp only [Prod.mk.sizeOf_spec]
      omega
    simp only [Json.obj.sizeOf_spec]
    omega

/-! ## Team context (`TeamContextModel`, agent_core/models.py;
`AgentStateManager.update_team_context`, agent_core/state_manager.py) -/

/-- The declared fields of `TeamContextModel` (agent_core/models.py), in
declaration order; Pydantic's `model_dump` lists declared fields first, in
this order, then extra fields in insertion order. -/
def declaredFields : List String :=
  ["team_goal", "objectives", "milestones", "findings", "decisions",
   "blockers", "next_actions"]

/-- Does a Json value fit `Optional[str]` under Pydantic v2 (no coercion of
non-strings into strings)? -/
def okOptStr : Json → Bool
  | Json.null => true
  | Json.str _ => true
  | _ => false

/-- Does a Json value fit `Optional[List[str]]` under Pydantic v2? -/
def okOptListStr : Json → Bool
  | Json.null => true
  | Json.arr xs => xs.all (fun x => match x with | Json.str _ => true | _ => false)
  | _ => false

/-- `TeamContextModel.model_validate(d)` for a dict `d` (`extra="allow"`):
succeeds iff every declared field present in `d` has its declared type
(`team_goal : Optional[str]`, the six others `Optional[List[str]]`); extra
keys are kept unchecked.  The resulting model instance is fully described
by the provided data `d` (which keys were provided — Pydantic's
`model_fields_set` — and their values), so it is represented by `d`
itself.  `tcFieldOk` is the per-entry type check. -/
def tcFieldOk (kv : String × Json) : Bool :=
  if kv.1 = "team_goal" then okOptStr kv.2
  else if kv.1 ∈ declaredFields then okOptListStr kv.2
  else true

/-- `TeamContextModel.model_validate(d)`: see `tcFieldOk`. -/
def validateTC (d : List (String × Json)) : Option (List (String × Json)) :=
  if d.all tcFieldOk then some d else none

/-- `model_dump()` of a validated model with data `m`: all declared fields
(defaulting to `None`), then the extra fields in insertion order. -/
def dumpAll (m : List (String × Json)) : List (String × Json) :=
  declaredFields.map (fun f => (f, (Dict.lookup f m).getD Json.null)) ++
    m.filter (fun kv => kv.1 ∉ declaredFields)

/-- `model_dump(exclude_unset=True, exclude_none=True)` of a validated model
with data `m`: only the fields that were provided and are not `None`,
declared fields first. -/
def dumpSetNonNull (m : List (String × Json)) : List (String × Json) :=
  (declaredFields.filterMap (fun f =>
      (Dict.lookup f m).map (fun v => (f, v))) ++
    m.filter (fun kv => kv.1 ∉ declaredFields)).filter
      (fun kv => ! kv.2.isNull)

/-- `TeamContextModel.merge_patch` (agent_core/models.py): validate the
patch; on success return
`{**self.model_dump(), **validated.model_dump(exclude_unset=True, exclude_none=True)}`;
on a validation failure fall back to `{**self.model_dump(), **patch}`. -/
def merge_patch (m patch : List (String × Json)) : List (String × Json) :=
  match validateTC patch with
  | some p => Dict.union (dumpAll m) (dumpSetNonNull p)
  | none => Dict.union (dumpAll m) patch

/-- The team-context slice of `AgentStateManager`: the in-memory
`team_context` dict and the cached `_team_ctx_model` (`None` until a
successful validation). -/
structure TCState where
  team_context : List (String × Json)
  model : Option (List (String × Json))

/-- `AgentStateManager.update_team_context` (agent_core/state_manager.py):
drop the disallowed key `answer` from the patch; lazily (re)validate the
cached model; merge through `TeamContextModel.merge_patch` when a model is
available, plain dict union otherwise; re-validate the merged dict (keeping
the old model on failure); finally remove `answer` again as a backstop.
`save_team_context` touches only the disk and is modelled in the
persistence section. -/
def update_team_context (s : TCState) (patch : List (String × Json)) : TCState :=
  let sanitized := Dict.erase "answer" patch
  let model0 := match s.model with
    | some m => some m
    | none => validateTC s.team_context
  match model0 with
  | some m =>
    let merged := merge_patch m sanitized
    match validateTC merged with
    | some m2 => ⟨Dict.erase "answer" (dumpAll m2), some m2⟩
    | none => ⟨Dict.erase "answer" merged, some m⟩
  | none => ⟨Dict.erase "answer" (Dict.union s.team_context sanitized), none⟩

/-! ## Tool registry (`ToolRegistry`, tools_agent/toolkit.py) -/

/-- A function decorated with `@tool` (tools_agent/toolkit.py): the
decorator attaches a `schema` (whose `function.name` is the function's
name) and an `executable` wrapper.  Argument validation against the
Pydantic parameter model happens inside `ToolRegistry.execute`; since no
claim depends on its outcome it is folded into the stored callable `exec`,
which maps the (already JSON-decoded) arguments to a result or a raised
error. -/
structure ToolFunc where
  name : String
  doc : String
  schema : Json
  exec : Json → Except String Json

/-- `ToolRegistry` (tools_agent/toolkit.py).  `_name_to_model` and
`_name_to_func` only feed the argument-validation step folded into the
stored callable, so the callable map represents all three name-indexed
dicts (they are updated with the same keys at the same time). -/
structure ToolRegistry where
  name_to_callable : List (String × (Json → Except String Json))
  schemas : List Json
  tool_docs_by_name : List (String × String)
  registration_order : List String

/-- `ToolRegistry.__init__`. -/
def ToolRegistry.empty : ToolRegistry := ⟨[], [], [], []⟩

/-- `ToolRegistry.register` (tools_agent/toolkit.py, lines 146–183): reads
the name from the attached schema and stores callable, schema, registration
order and docs.  There is no name-collision check: an existing name's
callable is overwritten in place (Python dict assignment) and the schema
and registration order are appended again.  The only failure mode in the
source — a function without the `@tool` schema attribute — cannot occur
here because `ToolFunc` always carries one. -/
def ToolRegistry.register (r : ToolRegistry) (f : ToolFunc) : ToolRegistry where
  name_to_callable := Dict.assign f.name f.exec r.name_to_callable
  schemas := r.schemas ++ [f.schema]
  tool_docs_by_name := Dict.assign f.name f.doc r.tool_docs_by_name
  registration_order := r.registration_order ++ [f.name]

/-- `ToolRegistry.has`. -/
def ToolRegistry.has (r : ToolRegistry) (tool_name : String) : Bool :=
  Dict.contains tool_name r.name_to_callable

/-- `ToolRegistry.execute` (tools_agent/toolkit.py): raise for an
unregistered name, otherwise run the stored callable on the decoded
arguments (validation folded into the callable, see `ToolFunc`). -/
def ToolRegistry.execute (r : ToolRegistry) (tool_name : String) (args : Json) :
    Except String Json :=
  match Dict.lookup tool_name r.name_to_callable with
  | none => .error ("工具 " ++ tool_name ++ " 未注册")
  | some f => f args

/-- `ToolRegistry.get_all_tool_names`. -/
def ToolRegistry.get_all_tool_names (r : ToolRegistry) : List String :=
  Dict.keys r.name_to_callable

/-! ## MCP connection manager (`MCPManager`, agent_core/mcp_manager.py) -/

/-- `MCPToolDefinition` (agent_core/mcp_manager.py). -/
structure MCPToolDef where
  name : String
  description : String
  input_schema : Json

/-- The externally observable outcome of one server's connection and
discovery handshake (the stdio transport, `ClientSession` setup,
`initialize` and `list_tools` are external processes):
`connectFail` = an exception before the session was added to
`self.sessions`; `listToolsFail` = the session was established but
`list_tools` raised; `ok tools` = handshake succeeded with the given
discovered tool list. -/
inductive ServerOutcome where
  | connectFail
  | listToolsFail
  | ok (tools : List MCPToolDef)

/-- `MCPManager` state (agent_core/mcp_manager.py): established sessions
(abstract handles), the imported tool descriptors, the tool-to-session
routing dict and the per-server status map. -/
structure MCPManager where
  sessions : List Nat
  available_tools : List MCPToolDef
  tool_to_session : List (String × Nat)
  server_status : List (String × Bool)

/-- `MCPManager.__init__`. -/
def MCPManager.empty : MCPManager := ⟨[], [], [], []⟩

/-- `MCPManager.connect_to_server` (agent_core/mcp_manager.py, lines
65–119): on any handshake exception, record `False` in the status map and
return `False` (nothing is raised); on success append the session, import
every discovered tool into `tool_to_session` and `available_tools`, record
`True` and return `True`.  A failure in `list_tools` leaves the
already-appended session in place but imports no tools.  Session handles
are modelled by fresh numbers. -/
def MCPManager.connect_to_server (m : MCPManager) (server_name : String)
    (outcome : ServerOutcome) : MCPManager × Bool :=
  match outcome with
  | .connectFail =>
      ({ m with server_status := Dict.assign server_name false m.server_status }, false)
  | .listToolsFail =>
      ({ m with
          sessions := m.sessions ++ [m.sessions.length],
          server_status := Dict.assign server_name false m.server_status }, false)
  | .ok tools =>
      let sid := m.sessions.length
      ({ m with
          sessions := m.sessions ++ [sid],
          tool_to_session :=
            tools.foldl (fun acc t => Dict.assign t.name sid acc) m.tool_to_session,
          available_tools := m.available_tools ++ tools,
          server_status := Dict.assign server_name true m.server_status }, true)

/-- The `for server_name, task in connection_tasks` loop of
`MCPManager.connect_to_servers`: await each server's connection in turn and
record its flag in the results dict. -/
def MCPManager.connect_to_servers_loop (m : MCPManager)
    (results : List (String × Bool)) :
    List (String × ServerOutcome) → MCPManager × List (String × Bool)
  | [] => (m, results)
  | s :: rest =>
    let r := m.connect_to_server s.1 s.2
    connect_to_servers_loop r.1 (Dict.assign s.1 r.2 results) rest

/-- `MCPManager.connect_to_servers` (agent_core/mcp_manager.py, lines
121–182): walk the configured servers (a JSON object, so the names are
unique), connect each one — `connect_to_server` never raises, so the
per-name `except` arm that would record `False` is dead — and collect the
per-server results.  The configuration is the map of server names to their
handshake outcome. -/
def MCPManager.connect_to_servers (m : MCPManager)
    (servers : List (String × ServerOutcome)) : MCPManager × List (String × Bool) :=
  m.connect_to_servers_loop [] servers

/-- `MCPManager.list_available_tools`. -/
def MCPManager.list_available_tools (m : MCPManager) : List String :=
  m.available_tools.map MCPToolDef.name

/-- `MCPManager.execute_mcp_tool` (agent_core/mcp_manager.py): raise for a
name with no owning session; otherwise forward over the owning session's
transport (external — the `callTool` oracle), re-raising transport errors
as `MCP工具执行失败`.  The concatenation of multi-part textual content
happens inside the transport result, which the oracle already returns as a
single value. -/
def MCPManager.execute_mcp_tool (m : MCPManager)
    (callTool : Nat → String → Json → Except String Json)
    (tool_name : String) (arguments : Json) : Except String Json :=
  match Dict.lookup tool_name m.tool_to_session with
  | none => .error ("MCP工具 " ++ tool_name ++ " 不存在")
  | some sid =>
      match callTool sid tool_name arguments with
      | .ok v => .ok v
      | .error e => .error ("MCP工具执行失败: " ++ e)

/-! ## Tool manager (`AgentToolManager`, agent_core/tools.py) -/

/-- `AgentToolManager` (agent_core/tools.py): local tools (wrapped in
`LocalToolManager`, whose sync/async dispatch is invisible here), their
prompt configs, the `@tool` registry, and the optional MCP manager. -/
structure AgentToolManager where
  local_tools : List (String × (Json → Except String Json))
  tool_prompt_config : List Json
  registry : ToolRegistry
  mcp_manager : Option MCPManager

/-- `AgentToolManager.__init__`. -/
def AgentToolManager.empty : AgentToolManager := ⟨[], [], ToolRegistry.empty, none⟩

/-- `AgentToolManager.register_local_tool` (agent_core/tools.py, lines
59–63): raise `ValueError` if the name is already a *local* tool (names
held by the registry or MCP manager are not checked), else append the
wrapped instance and its prompt config.  `Except.error` models the raise,
which leaves the manager unchanged. -/
def AgentToolManager.register_local_tool (m : AgentToolManager) (name : String)
    (tool_instance : Json → Except String Json) (tool_config_for_prompt : Json) :
    Except String AgentToolManager :=
  if Dict.contains name m.local_tools then
    .error ("工具 " ++ name ++ " 已经注册")
  else
    .ok { m with
      local_tools := m.local_tools ++ [(name, tool_instance)],
      tool_prompt_config := m.tool_prompt_config ++ [tool_config_for_prompt] }

/-- `AgentToolManager.register_tool_function`: forwards to
`ToolRegistry.register` (re-raising its errors; with a schema always
present, `register` always succeeds). -/
def AgentToolManager.register_tool_function (m : AgentToolManager) (f : ToolFunc) :
    AgentToolManager :=
  { m with registry := m.registry.register f }

/-- `AgentToolManager.is_mcp_tool`. -/
def AgentToolManager.is_mcp_tool (m : AgentToolManager) (tool_name : String) : Bool :=
  match m.mcp_manager with
  | none => false
  | some mm => tool_name ∈ mm.list_available_tools

/-- `AgentToolManager.list_available_tools`: registry names, then local
names, then MCP names. -/
def AgentToolManager.list_available_tools (m : AgentToolManager) : List String :=
  m.registry.get_all_tool_names ++ Dict.keys m.local_tools ++
    (match m.mcp_manager with | none => [] | some mm => mm.list_available_tools)

/-- `AgentToolManager.execute_tool` (agent_core/tools.py, lines 148–175):
try the `@tool` registry first, then local tools, then MCP tools (each
re-raising execution errors); a name found nowhere raises
`ValueError("工具 ... 未找到")`. -/
def AgentToolManager.execute_tool (m : AgentToolManager)
    (callTool : Nat → String → Json → Except String Json)
    (tool_name : String) (kwargs : Json) : Except String Json :=
  if m.registry.has tool_name then
    m.registry.execute tool_name kwargs
  else if Dict.contains tool_name m.local_tools then
    match Dict.lookup tool_name m.local_tools with
    | some f => f kwargs
    | none => .error "unreachable"
  else if m.is_mcp_tool tool_name then
    match m.mcp_manager with
    | some mm => mm.execute_mcp_tool callTool tool_name kwargs
    | none => .error "unreachable"
  else
    .error ("工具 " ++ tool_name ++ " 未找到")

/-- Is `tool_name` dispatchable through any of the three backends? -/
def AgentToolManager.registeredAnywhere (m : AgentToolManager) (tool_name : String) : Bool :=
  m.registry.has tool_name || Dict.contains tool_name m.local_tools ||
    m.is_mcp_tool tool_name

/-! ## Conversation state (`AgentStateManager`, agent_core/state_manager.py) -/

/-- The in-memory state held by `AgentStateManager`: the role/content
message dicts (`conversations`, `tool_conversations`, kept as the decoded
JSON values Python holds), the three textual projections, and the team
context slice.  The session handle, loggers and file objects live in the
persistence section. -/
structure AgentState where
  conversations : List Json
  tool_conversations : List Json
  display_conversations : String
  full_context_conversations : String
  tool_execute_conversations : String
  team : TCState

/-- A fresh `AgentStateManager` (its `__init__` runs
`init_conversations()` with an empty prompt, leaving everything empty). -/
def initialAgentState : AgentState := ⟨[], [], "", "", "", ⟨[], none⟩⟩

/-- A `{"role": r, "content": c}` message dict. -/
def mkMsg (role content : String) : Json :=
  Json.obj [("role", Json.str role), ("content", Json.str content)]

/-- The characters Python's argument-less `str.strip()` removes (ASCII
whitespace and controls plus NEL and NBSP; the remaining Unicode
space-category characters are irrelevant to the claims). -/
def pyWhitespace : List Char :=
  [' ', '\t', '\n', '\r', '\x0b', '\x0c', '\x1c', '\x1d', '\x1e', '\x1f',
   '\x85', '\xa0']

/-- Python `content.strip()`. -/
def pyStrip (s : String) : String :=
  String.mk (((s.data.dropWhile (· ∈ pyWhitespace)).reverse.dropWhile
    (· ∈ pyWhitespace)).reverse)

/-- The value of a character in the standard base64 alphabet, if any. -/
def b64Val (c : Char) : Option Nat :=
  if 'A' ≤ c ∧ c ≤ 'Z' then some (c.toNat - 65)
  else if 'a' ≤ c ∧ c ≤ 'z' then some (c.toNat - 97 + 26)
  else if '0' ≤ c ∧ c ≤ '9' then some (c.toNat - 48 + 52)
  else if c = '+' then some 62
  else if c = '/' then some 63
  else none

/-- The regex `^[A-Za-z0-9+/]*={0,2}$` of `_decode_if_base64`
(agent_core/state_manager.py): a run of base64-alphabet characters followed
by at most two `=`. -/
def b64PatternMatch (s : String) : Bool :=
  let cs := s.data
  let dataLen := (cs.takeWhile (fun c => (b64Val c).isSome)).length
  let rest := cs.drop dataLen
  rest.length ≤ 2 && rest.all (· = '=')

/-- Four base64 sextets give three bytes; a final short group (from `=`
padding) gives two or one, discarding the unused low bits (Python's
non-strict `binascii.a2b_base64` does not require them to be zero). -/
def b64SextetsToBytes : List Nat → List Nat
  | a :: b :: c :: d :: rest =>
      (a * 4 + b / 16) :: ((b % 16) * 16 + c / 4) :: ((c % 4) * 64 + d) ::
        b64SextetsToBytes rest
  | [a, b] => [a * 4 + b / 16]
  | [a, b, c] => [a * 4 + b / 16, (b % 16) * 16 + c / 4]
  | _ => []

/-- `base64.b64decode(s)` (Python stdlib, default non-strict mode) on the
inputs reaching it here — which the preceding regex constrains to alphabet
characters followed by at most two `=` —: it raises `Incorrect padding`
unless the length is a multiple of four, and otherwise decodes the sextet
run. -/
def b64Decode (s : String) : Option (List Nat) :=
  let cs := s.data
  let data := cs.takeWhile (fun c => (b64Val c).isSome)
  let pads := cs.drop data.length
  if pads.all (· = '=') && cs.length % 4 = 0 then
    some (b64SextetsToBytes (data.filterMap b64Val))
  else none

/-- Is a byte a UTF-8 continuation byte (`0x80–0xBF`)? -/
def isContByte (b : Nat) : Bool := 0x80 ≤ b && b < 0xC0

/-- `bytes.decode("utf-8")` (Python stdlib, strict): rejects truncated
sequences, stray continuation bytes, overlong encodings, surrogates and
code points beyond `U+10FFFF`; yields the decoded characters otherwise. -/
def utf8Decode : List Nat → Option (List Char)
  | [] => some []
  | b :: rest =>
    if b < 0x80 then (utf8Decode rest).map (fun cs => Char.ofNat b :: cs)
    else if b < 0xC2 then none
    else if b < 0xE0 then
      match rest with
      | b1 :: r =>
        if isContByte b1 then
          (utf8Decode r).map (fun cs =>
            Char.ofNat ((b - 0xC0) * 0x40 + (b1 - 0x80)) :: cs)
        else none
      | [] => none
    else if b < 0xF0 then
      match rest with
      | b1 :: b2 :: r =>
        if (if b = 0xE0 then 0xA0 ≤ b1 && b1 < 0xC0
            else if b = 0xED then 0x80 ≤ b1 && b1 < 0xA0
            else isContByte b1) && isContByte b2 then
          (utf8Decode r).map (fun cs =>
            Char.ofNat ((b - 0xE0) * 0x1000 + (b1 - 0x80) * 0x40 + (b2 - 0x80)) :: cs)
        else none
      | _ => none
    else if b < 0xF5 then
      match rest with
      | b1 :: b2 :: b3 :: r =>
        if (if b = 0xF0 then 0x90 ≤ b1 && b1 < 0xC0
            else if b = 0xF4 then 0x80 ≤ b1 && b1 < 0x90
            else isContByte b1) && isContByte b2 && isContByte b3 then
          (utf8Decode r).map (fun cs =>
            Char.ofNat ((b - 0xF0) * 0x40000 + (b1 - 0x80) * 0x1000 +
              (b2 - 0x80) * 0x40 + (b3 - 0x80)) :: cs)
        else none
      | _ => none
    else none

/-- The separator characters `_decode_if_base64` checks for: space, the
common Chinese punctuation marks, and newline. -/
def sepChars : List Char := [' ', '。', '，', '？', '！', '\n']

/-- `AgentStateManager._decode_if_base64` (agent_core/state_manager.py,
lines 303–315): content shorter than 50 characters or containing a
separator is returned verbatim; otherwise, if the stripped content matches
the base64 regex and `b64decode` + UTF-8 decoding succeed, the decoded
text is returned, else the original content. -/
def decode_if_base64 (content : String) : String :=
  if content.length < 50 || content.data.any (· ∈ sepChars) then content
  else if ¬ b64PatternMatch (pyStrip content) then content
  else
    match b64Decode (pyStrip content) with
    | none => content
    | some bytes =>
      match utf8Decode bytes with
      | none => content
      | some cs => String.mk cs

/-- `AgentStateManager._add_user_message`. -/
def addUserMessage (st : AgentState) (content : String) : AgentState :=
  let formatted := "===user===: \n" ++ content ++ "\n"
  { st with
      display_conversations := st.display_conversations ++ formatted,
      full_context_conversations := st.full_context_conversations ++ formatted,
      tool_execute_conversations := st.tool_execute_conversations ++ formatted,
      conversations := st.conversations ++ [mkMsg "user" content] }

/-- `AgentStateManager._add_assistant_message`. -/
def addAssistantMessage (st : AgentState) (content : String) : AgentState :=
  let formatted := "===assistant===: \n" ++ content ++ "\n"
  { st with
      conversations := st.conversations ++ [mkMsg "assistant" content],
      display_conversations := st.display_conversations ++ formatted,
      full_context_conversations := st.full_context_conversations ++ formatted }

/-- `AgentStateManager._add_tool_message`: only the full-context projection
records tool observations. -/
def addToolMessage (st : AgentState) (content streamPrefix : String) : AgentState :=
  { st with
      full_context_conversations := st.full_context_conversations ++
        "===tool===: \n" ++ streamPrefix ++ content ++ "\n" }

/-- `AgentStateManager._add_react_message`. -/
def addReactMessage (st : AgentState) (content streamPrefix : String) : AgentState :=
  { st with
      full_context_conversations := st.full_context_conversations ++
        "===react===: \n" ++ streamPrefix ++ content ++ "\n" }

/-- The role dispatch at the end of `add_message`. -/
def dispatchMessage (st : AgentState) (role content streamPrefix : String) :
    AgentState :=
  if role = "user" then addUserMessage st content
  else if role = "assistant" then addAssistantMessage st content
  else if role = "tool" then addToolMessage st content streamPrefix
  else addReactMessage st content streamPrefix

/-- `AgentStateManager.add_message` (agent_core/state_manager.py, lines
269–280): reject unsupported roles (`none` models the raised
`ValueError`), pass the content through `_decode_if_base64`, then route to
the per-role append. -/
def add_message (st : AgentState) (role content streamPrefix : String) :
    Option AgentState :=
  if role ∈ ["user", "assistant", "tool", "react"] then
    some (dispatchMessage st role (decode_if_base64 content) streamPrefix)
  else none

/-! ## Orchestration loop (`EchoAgent._execute_tool_loop_common` /
`_execute_single_tool`, agent_frame.py) -/

/-- The protocol variant (`VersionLiteral`). -/
inductive Version where
  | v1
  | v2
deriving DecidableEq

/-- A tool event as built by `EchoAgent._create_tool_event`
(agent_frame.py) through `ToolEventModel` (agent_core/models.py); the
`[[TOOL_EVENT]]` JSON serialization is a faithful rendering of these
fields and is not itself needed by any claim. -/
structure ToolEvent where
  type : String
  tool_name : String
  status : String
  tool_args : Option Json
  content : Option String
  result : Option Json
  error : Option String

/-- `EchoAgent._create_tool_event` (agent_frame.py, lines 878–933); the
timestamp is external real time and carries no claim content. -/
def create_tool_event (event_type tool_name : String) (data : Json)
    (status : String) : ToolEvent :=
  if event_type = "tool_start" then
    ⟨"tool_start", tool_name, status,
      (match data with | Json.obj kvs => some (Json.obj kvs) | _ => none),
      some ("开始调用 " ++ tool_name), none, none⟩
  else if event_type = "tool_result" then
    ⟨"tool_result", tool_name, status, none, none, some data, none⟩
  else if event_type = "tool_error" then
    ⟨"tool_error", tool_name, status, none, none, none, some (jsonToStr data)⟩
  else
    ⟨"tool_result", tool_name, status, none, none, none, none⟩

/-- The environment of one `process_query` run: everything the loop
consumes that is produced outside the loop's own code.  `intentionOf i` is
the resolver's output for the `i`-th intention resolution (`i = 0` is the
one taken before the loop starts); `ansOf`/`toolPromptOf`/`sysPromptOf`/
`judgePromptOf`/`mainAnsOf` are the raw model texts and prompt-template
texts of that step (the LLM and the template contents are external
collaborators); `paramsOf` and `extractCode` model `parse_function_call`
and `extract_python_code` from the absent
`tools_agent/function_call_toolbox.py`; `getJsonOf` models `get_json` on
tool-result strings; `mcpCall` is the MCP transport. -/
structure LoopEnv where
  version : Version
  intentionOf : Nat → List String
  ansOf : Nat → String
  toolPromptOf : Nat → String
  sysPromptOf : Nat → String
  judgePromptOf : Nat → String
  mainAnsOf : Nat → String
  toolAnaPrompt : String
  paramsOf : String → List (String × Json)
  extractCode : String → String
  getJsonOf : String → Except Unit Json
  codeRunnerSessionId : String
  userId : String
  mgr : AgentToolManager
  mcpCall : Nat → String → Json → Except String Json

/-- Modelled from the spec: `get_func_name(convert_outer_quotes(call))`
(tools_agent/function_call_toolbox.py is absent from the sources).  The
spec's decision protocol encodes one call per string as
`name(arguments)`; the function name is the part before the first
parenthesis, and outer-quote normalization does not change it. -/
def funcNameOf (call : String) : String :=
  String.mk (call.data.takeWhile (fun c => c ≠ '('))

/-- `EchoAgent._stop_signal` (agent_frame.py, lines 621–626). -/
def stop_signal (version : Version) (func_name : String) : Bool :=
  match version with
  | .v2 => func_name = STOP_SIGNAL_V2
  | .v1 => func_name = STOP_SIGNAL

/-- The `should_continue` closure of `_execute_tool_loop_common`: v1 keeps
looping while the raw stop marker is absent from the whole intention list;
v2 while the current function name is not the v2 marker. -/
def should_continue (version : Version) (tools : List String)
    (func_name : String) : Bool :=
  match version with
  | .v1 => ¬ STOP_SIGNAL ∈ tools
  | .v2 => ¬ stop_signal .v2 func_name

/-- Does a message dict have `role == "assistant"`? -/
def isAssistantMsg : Json → Bool
  | Json.obj kvs =>
    match Dict.lookup "role" kvs with
    | some (Json.str r) => r = "assistant"
    | _ => false
  | _ => false

/-- `str(_msg.get("content", ""))` of a message dict. -/
def msgContentStr : Json → String
  | Json.obj kvs =>
    match Dict.lookup "content" kvs with
    | some v => jsonToStr v
    | none => ""
  | _ => ""

/-- The `current_response` refresh in the loop (and the analogous scan in
`process_query`): the content of the latest assistant message, or the
previous value when there is none. -/
def lastAssistantContent (conversations : List Json) (current : String) : String :=
  match conversations.reverse.find? isAssistantMsg with
  | some msg => msgContentStr msg
  | none => current

/-- `EchoAgent._parse_tool_params` (agent_frame.py, lines 836–876):
`parse_function_call`'s params (empty on a parse failure — covered by the
`paramsOf` oracle), with the CodeRunner code/session injection and the
shared `user_id` / `display_conversations` entries. -/
def parse_tool_params (env : LoopEnv) (st : AgentState)
    (call func_name lastResponse : String) : List (String × Json) :=
  let params := env.paramsOf call
  let params :=
    if func_name = "CodeRunner" then
      Dict.assign "session_id" (Json.str env.codeRunnerSessionId)
        (Dict.assign "code" (Json.str (env.extractCode lastResponse)) params)
    else params
  Dict.assign "display_conversations" (Json.str st.display_conversations)
    (Dict.assign "user_id" (Json.str env.userId) params)

/-- The patch-extraction convention of
`EchoAgent._maybe_update_team_context_from_tool_result`: the first of
`team_context` / `tc_update` / `context_update` holding a dict. -/
def pickCtxKey (kvs : List (String × Json)) : Option (List (String × Json)) :=
  match Dict.lookup "team_context" kvs with
  | some (Json.obj p) => some p
  | _ =>
    match Dict.lookup "tc_update" kvs with
    | some (Json.obj p) => some p
    | _ =>
      match Dict.lookup "context_update" kvs with
      | some (Json.obj p) => some p
      | _ => none

/-- `EchoAgent._maybe_update_team_context_from_tool_result` (agent_frame.py,
lines 791–834): extract a patch from a dict result (one of the dedicated
keys, or the flat dict itself when it has 1–8 keys; the string-key filter
is a no-op since JSON keys are strings) or from a string result through
`get_json`; an empty patch is falsy and skipped; the `answer` key is
dropped at entry before `update_team_context`. -/
def maybe_update_team_context_from_tool_result (env : LoopEnv)
    (tool_result : Json) (st : AgentState) : AgentState :=
  let patch? :=
    match tool_result with
    | Json.obj kvs =>
      match pickCtxKey kvs with
      | some p => some p
      | none => if 0 < kvs.length ∧ kvs.length ≤ 8 then some kvs else none
    | Json.str s =>
      match env.getJsonOf s with
      | .ok (Json.obj kvs) => pickCtxKey kvs
      | _ => none
    | _ => none
  match patch? with
  | none => st
  | some p =>
    if p.isEmpty then st
    else { st with team := update_team_context st.team (Dict.erase "answer" p) }

/-- `AgentStateManager.init_conversations` (agent_core/state_manager.py):
reset the message list to the system prompt (empty prompt → empty list);
the system-prompt file write is disk-only. -/
def init_conversations (st : AgentState) (system_prompt : String) : AgentState :=
  { st with conversations :=
      if system_prompt = "" then [] else [mkMsg "system" system_prompt] }

/-- `EchoAgent._agent_reset` (agent_frame.py, lines 493–547): regenerate
the system prompt (template text external, `sysPromptOf`), reset
`conversations` to it, and append the judge prompt as a user message; the
judge-prompt file write is disk-only, and every failure inside is caught. -/
def agent_reset (env : LoopEnv) (step : Nat) (st : AgentState) : AgentState :=
  let st1 := init_conversations st (env.sysPromptOf step)
  { st1 with conversations := st1.conversations ++ [mkMsg "user" (env.judgePromptOf step)] }

/-- `EchoAgent._stream_main_answer` (agent_frame.py): stream the main
model's text (external, `mainAnsOf`) and append it as an assistant
message.  The role literal is valid, so `add_message` cannot hit its
error arm. -/
def stream_main_answer (env : LoopEnv) (step : Nat) (st : AgentState) : AgentState :=
  (add_message st "assistant" (env.mainAnsOf step) "").getD st

/-- `EchoAgent._generate_tool_response` (agent_frame.py, lines 935–959):
append the analysis prompt as a `react` message, reset prompts, stream the
main model's analysis. -/
def generate_tool_response (env : LoopEnv) (step : Nat) (st : AgentState) : AgentState :=
  let st1 := (add_message st "react" env.toolAnaPrompt "").getD st
  stream_main_answer env step (agent_reset env step st1)

/-- `EchoAgent._execute_single_tool` (agent_frame.py, lines 715–789): parse
params, emit `tool_start`, dispatch through `AgentToolManager.execute_tool`;
on success append the stringified result as a tool observation, maybe merge
the team context, emit `tool_result` and generate the reflection; on any
exception emit only a failed `tool_error` event — the state is returned
unchanged and nothing is appended. -/
def execute_single_tool (env : LoopEnv) (step : Nat)
    (call func_name lastResponse : String) (st : AgentState) :
    List ToolEvent × AgentState :=
  let params := parse_tool_params env st call func_name lastResponse
  let startEv := create_tool_event "tool_start" func_name (Json.obj params) "running"
  match env.mgr.execute_tool env.mcpCall func_name (Json.obj params) with
  | .ok tool_result =>
    let st1 := (add_message st "tool" (jsonToStr tool_result)
      ("工具" ++ func_name ++ "返回结果:")).getD st
    let st2 := maybe_update_team_context_from_tool_result env tool_result st1
    let st3 := generate_tool_response env step st2
    ([startEv, create_tool_event "tool_result" func_name tool_result "completed"], st3)
  | .error e =>
    ([startEv, create_tool_event "tool_error" func_name (Json.str e) "failed"], st)

/-- The state effects of `EchoAgent._get_tool_intention_common`
(agent_frame.py, lines 280–326) for the `i`-th resolution: reset
`tool_conversations` to the intention prompt and the raw answer, and log
the answer into the tool-execute projection.  Its return value — the
resolver's output — is the `intentionOf i` oracle component; the
tool-system-prompt file write is disk-only. -/
def get_tool_intention_state (env : LoopEnv) (i : Nat) (st : AgentState) : AgentState :=
  { st with
      tool_conversations := [mkMsg "user" (env.toolPromptOf i), mkMsg "assistant" (env.ansOf i)],
      tool_execute_conversations := st.tool_execute_conversations ++
        "===assistant===: \n" ++ env.ansOf i ++ "\n" }

/-- How a loop run ended.  `fuelExhausted` means the loop was still
cycling when the observation bound `fuel` ran out — the source has no
step budget of its own. -/
inductive LoopOutcome where
  | emptyIntention
  | finalAnswer
  | modelStop
  | fuelExhausted
deriving DecidableEq

/-- The observables of a loop run: the dispatch trace (resolution index,
dispatched tool-call string), the emitted tool events, the final in-memory
state and how the run ended. -/
structure LoopResult where
  trace : List (Nat × String)
  events : List ToolEvent
  state : AgentState
  outcome : LoopOutcome

/-- The `while should_continue()` loop of
`EchoAgent._execute_tool_loop_common` (agent_frame.py, lines 654–713),
observed for `fuel` iterations (the source itself runs unbounded): check
the continue condition; take the head of the intention list (empty list →
break), recompute its function name, break on a stop marker; dispatch
exactly that head through `_execute_single_tool`; refresh
`current_response`; obtain the next resolution (`intentionOf (step+1)` and
its state effects); `save_all_conversations` writes only to disk;
`_agent_reset`; update `func_name` from the next head; loop. -/
def run_tool_loop (env : LoopEnv) :
    Nat → Nat → List String → String → String → AgentState → LoopResult
  | fuel, step, tools, fn, resp, st =>
    if ¬ should_continue env.version tools fn then ⟨[], [], st, .modelStop⟩
    else
      match fuel with
      | 0 => ⟨[], [], st, .fuelExhausted⟩
      | fuel' + 1 =>
        match tools with
        | [] => ⟨[], [], st, .emptyIntention⟩
        | call :: _ =>
          let fn' := funcNameOf call
          if stop_signal env.version fn' then ⟨[], [], st, .modelStop⟩
          else
            let r0 := execute_single_tool env step call fn' resp st
            let resp' := lastAssistantContent r0.2.conversations resp
            let tools' := env.intentionOf (step + 1)
            let st2 := get_tool_intention_state env (step + 1) r0.2
            let st3 := agent_reset env (step + 1) st2
            let fn'' := match tools' with | [] => fn' | next :: _ => funcNameOf next
            let r := run_tool_loop env fuel' (step + 1) tools' fn'' resp' st3
            ⟨(step, call) :: r.trace, r0.1 ++ r.events, r.state, r.outcome⟩

/-- `EchoAgent._execute_tool_loop_common` (agent_frame.py, lines 628–713):
empty initial intention → log and return; a stop marker at the head →
stream the final answer and return; otherwise enter the while loop. -/
def execute_tool_loop_common (env : LoopEnv) (fuel : Nat)
    (intention_tools : List String) (last_agent_response : String)
    (st : AgentState) : LoopResult :=
  match intention_tools with
  | [] => ⟨[], [], st, .emptyIntention⟩
  | call :: _ =>
    let fn := funcNameOf call
    if stop_signal env.version fn then
      ⟨[], [], stream_main_answer env 0 st, .finalAnswer⟩
    else run_tool_loop env fuel 0 intention_tools fn last_agent_response st

/-! ## Persistence (`AgentStateManager._save_with_session` /
`_save_without_session` / `restore_from_session_files` /
`save_team_context` / `load_team_context`, agent_core/state_manager.py)

The per-session files of `file_manager.conversation_files`
(utils/file_manager.py): `conversations.json`, `display_conversations.md`,
`full_context_conversations.md`, `tool_conversations.json`,
`tool_execute_conversations.md`, `team_context.json`.  `.md` files hold the
textual projections verbatim; `.json` files hold `json.dumps` of a
structured value, and since Python's stdlib `json.dumps`/`json.loads`
round-trips every value saved here, the file is modelled as holding the
structured value itself (a dumped document is never empty or
whitespace-only, so the `text.strip()` guards on the read side pass
whenever the file was written).  `none` models a missing file.  A write
that raises (disk error) is modelled by the per-file success predicate
`ok`; in the source each write sits in its own `try`/`except`, so one
failure is logged and the remaining writes still run. -/
structure SessionFiles where
  conversations : Option Json
  display : Option String
  full : Option String
  tools : Option Json
  tool_execute : Option String
  team_context : Option Json

/-- `AgentStateManager.save_team_context` (agent_core/state_manager.py):
write the model dump when a model is cached, the raw dict otherwise
(`model_dump` cannot raise here); a failed write is caught and changes
nothing. -/
def save_team_context (t : TCState) (fs : SessionFiles) (ok : String → Bool) :
    SessionFiles :=
  let payload := match t.model with
    | some m => dumpAll m
    | none => t.team_context
  if ok "team_context" then { fs with team_context := some (Json.obj payload) }
  else fs

/-- `AgentStateManager._save_with_session` (agent_core/state_manager.py,
lines 377–392): write the five conversation artifacts in order, each in
its own `try`/`except` (a failed write leaves that file as it was and the
loop continues), then `save_team_context`. -/
def save_with_session (st : AgentState) (fs : SessionFiles) (ok : String → Bool) :
    SessionFiles :=
  let fs1 := if ok "conversations" then
      { fs with conversations := some (Json.arr st.conversations) } else fs
  let fs2 := if ok "display" then
      { fs1 with display := some st.display_conversations } else fs1
  let fs3 := if ok "full" then
      { fs2 with full := some st.full_context_conversations } else fs2
  let fs4 := if ok "tools" then
      { fs3 with tools := some (Json.arr st.tool_conversations) } else fs3
  let fs5 := if ok "tool_execute" then
      { fs4 with tool_execute := some st.tool_execute_conversations } else fs4
  save_team_context st.team fs5 ok

/-- `AgentStateManager._save_without_session` (agent_core/state_manager.py,
lines 394–408): the same per-file best-effort writes aimed at the user
folder instead of the session directory (same artifact set, same
contents). -/
def save_without_session (st : AgentState) (fs : SessionFiles) (ok : String → Bool) :
    SessionFiles :=
  let fs1 := if ok "conversations" then
      { fs with conversations := some (Json.arr st.conversations) } else fs
  let fs2 := if ok "display" then
      { fs1 with display := some st.display_conversations } else fs1
  let fs3 := if ok "full" then
      { fs2 with full := some st.full_context_conversations } else fs2
  let fs4 := if ok "tools" then
      { fs3 with tools := some (Json.arr st.tool_conversations) } else fs3
  let fs5 := if ok "tool_execute" then
      { fs4 with tool_execute := some st.tool_execute_conversations } else fs4
  save_team_context st.team fs5 ok

/-- `AgentStateManager.save_all_conversations` (agent_core/state_manager.py,
lines 366–375): session present → `_save_with_session`, else
`_save_without_session`; the optional SQLite mirror is written afterwards
on a best-effort basis and touches neither the files nor the in-memory
state. -/
def save_all_conversations (st : AgentState) (fs : SessionFiles)
    (ok : String → Bool) (hasSession : Bool) : SessionFiles :=
  if hasSession then save_with_session st fs ok
  else save_without_session st fs ok

/-- `AgentStateManager.load_team_context` (agent_core/state_manager.py,
lines 86–125): no file → nothing; a loaded dict that validates becomes the
model and its dump; a dict that fails validation is taken raw (model
unchanged); a non-dict load leaves an empty dict.  A leftover `answer` key
is removed, the model revalidated when present (kept on failure), and the
sanitized context written back — a disk-only effect. -/
def load_team_context (fs : SessionFiles) (st : AgentState) : AgentState :=
  match fs.team_context with
  | none => st
  | some j =>
    let (model1, tc1) :=
      match j with
      | Json.obj kvs =>
        match validateTC kvs with
        | some m => (some m, dumpAll m)
        | none => (st.team.model, kvs)
      | _ => (st.team.model, ([] : List (String × Json)))
    if Dict.contains "answer" tc1 then
      let tc2 := Dict.erase "answer" tc1
      let model2 := match model1 with
        | none => none
        | some m1 =>
          match validateTC tc2 with
          | some m2 => some m2
          | none => some m1
      { st with team := ⟨tc2, model2⟩ }
    else { st with team := ⟨tc1, model1⟩ }

/-- `AgentStateManager.restore_from_session_files`
(agent_core/state_manager.py, lines 221–267), for a manager with a
session: read back the display and full texts when their files exist, the
tool and main message lists when their files hold (non-empty) JSON lists,
then `load_team_context`; every step is individually guarded, so a missing
or ill-shaped file skips only its own assignment. -/
def restore_from_session_files (fs : SessionFiles) (st : AgentState) : AgentState :=
  let st1 := match fs.display with
    | some t => { st with display_conversations := t }
    | none => st
  let st2 := match fs.full with
    | some t => { st1 with full_context_conversations := t }
    | none => st1
  let st3 := match fs.tools with
    | some (Json.arr xs) => { st2 with tool_conversations := xs }
    | _ => st2
  let st4 := match fs.conversations with
    | some (Json.arr xs) => { st3 with conversations := xs }
    | _ => st3
  load_team_context fs st4

/-! ## Concrete instances used to evaluate the theorems -/

/-- Did a server's handshake succeed? -/
def ServerOutcome.isOk : ServerOutcome → Bool
  | .ok _ => true
  | _ => false

/-- The tools a server contributes (none unless the handshake succeeded). -/
def ServerOutcome.toolsOf : ServerOutcome → List MCPToolDef
  | .ok ts => ts
  | _ => []

/-- The concatenation, in configuration order, of the tools discovered from
the servers whose handshake succeeded. -/
def toolsOfServers : List (String × ServerOutcome) → List MCPToolDef
  | [] => []
  | s :: rest => s.2.toolsOf ++ toolsOfServers rest

/-- The `@tool`-decorated `search_arxiv` as the single-agent scripts
register it (the handler body performs an external web call; its value is
opaque to every claim). -/
def searchArxivTool : ToolFunc where
  name := "search_arxiv"
  doc := "基于关键词与数量检索 arXiv 摘要"
  schema := Json.obj [("type", Json.str "function"),
    ("function", Json.obj [("name", Json.str "search_arxiv")])]
  exec := fun _ => .ok (Json.str "arxiv abstracts")

/-- A second tool function carrying the same name (as arises when two
modules both define a `search_arxiv`). -/
def searchArxivV2Tool : ToolFunc where
  name := "search_arxiv"
  doc := "另一个同名工具"
  schema := Json.obj [("type", Json.str "function"),
    ("function", Json.obj [("name", Json.str "search_arxiv")])]
  exec := fun _ => .ok (Json.str "other results")

/-- The `@tool`-decorated `Tool_CodeRunner` registration. -/
def codeRunnerTool : ToolFunc where
  name := "CodeRunner"
  doc := "执行Python代码"
  schema := Json.obj [("type", Json.str "function"),
    ("function", Json.obj [("name", Json.str "CodeRunner")])]
  exec := fun _ => .ok (Json.str "code output")

/-- A tool manager with the two standard `@tool` registrations and no MCP
connection — the everyday single-agent configuration. -/
def sampleMgr : AgentToolManager :=
  (AgentToolManager.empty.register_tool_function searchArxivTool).register_tool_function
    codeRunnerTool

/-- A concrete v1 loop environment over `sampleMgr` whose resolver output
is always the same single `search_arxiv` call. -/
def sampleEnv : LoopEnv where
  version := .v1
  intentionOf := fun _ => ["search_arxiv(keywords=llm)"]
  ansOf := fun _ => "raw intention answer"
  toolPromptOf := fun _ => "intention prompt"
  sysPromptOf := fun _ => "system prompt"
  judgePromptOf := fun _ => "judge prompt"
  mainAnsOf := fun _ => "main answer"
  toolAnaPrompt := "analysis prompt"
  paramsOf := fun _ => [("keywords", Json.str "llm")]
  extractCode := fun _ => ""
  getJsonOf := fun _ => .error ()
  codeRunnerSessionId := "sess-1"
  userId := "u1"
  mgr := sampleMgr
  mcpCall := fun _ _ _ => .error "no transport"

/-- Like `sampleEnv`, but the resolver always names a tool registered in
none of the three backends. -/
def sampleEnvUnknown : LoopEnv :=
  { sampleEnv with intentionOf := fun _ => ["nonexistent_tool()"] }

/-! ## General lemmas about the dict model -/

namespace Dict

variable {α : Type}

theorem lookup_append (k : String) (a b : List (String × α)) :
    lookup k (a ++ b) =
      match lookup k a with
      | some v => some v
      | none => lookup k b := by
  induction a with
  | nil => simp [lookup]
  | cons kv rest ih =>
    obtain ⟨k', v⟩ := kv
    by_cases h : k' = k <;> simp [lookup, h, ih]

theorem lookup_mem {k : String} {d : List (String × α)} {v : α}
    (h : lookup k d = some v) : (k, v) ∈ d := by
  induction d with
  | nil => simp [lookup] at h
  | cons kv rest ih =>
    obtain ⟨k', v'⟩ := kv
    by_cases hk : k' = k
    · subst hk
      simp [lookup] at h
      simp [h]
    · simp [lookup, hk] at h
      simp [ih h]

theorem lookup_eq_none_of_not_mem_keys {k : String} {d : List (String × α)}
    (h : k ∉ keys d) : lookup k d = none := by
  induction d with
  | nil => rfl
  | cons kv rest ih =>
    obtain ⟨k', v'⟩ := kv
    simp [keys] at h
    simp [lookup, h.1, ih (by simp [keys, h.2])]
    intro hc
    exact absurd hc.symm h.1

theorem lookup_mapfun (l : List String) (g : String → α) (k : String) :
    lookup k (l.map (fun f => (f, g f))) = if k ∈ l then some (g k) else none := by
  induction l with
  | nil => simp [lookup]
  | cons f rest ih =>
    by_cases h : f = k
    · subst h
      simp [lookup]
    · simp [lookup, h, ih, Ne.symm h]

theorem lookup_map_values (g : String → α → α) (k : String) (d : List (String × α)) :
    lookup k (d.map (fun kv => (kv.1, g kv.1 kv.2))) = (lookup k d).map (g k) := by
  induction d with
  | nil => simp [lookup]
  | cons kv rest ih =>
    obtain ⟨k', v'⟩ := kv
    by_cases h : k' = k
    · subst h
      simp [lookup]
    · simp [lookup, h, ih]

theorem lookup_filter_key (p : String → Bool) (k : String) (d : List (String × α)) :
    lookup k (d.filter (fun kv => p kv.1)) = if p k then lookup k d else none := by
  induction d with
  | nil => simp [lookup]
  | cons kv rest ih =>
    obtain ⟨k', v'⟩ := kv
    by_cases h : k' = k
    · subst h
      by_cases hp : p k' <;> simp [lookup, hp, ih]
    · by_cases hp : p k' <;> simp [lookup, h, hp, ih]

theorem lookup_erase (a k : String) (d : List (String × α)) :
    lookup k (erase a d) = if k = a then none else lookup k d := by
  have h := lookup_filter_key (fun x => decide (x ≠ a)) k d
  simp only [erase]
  rw [h]
  by_cases hk : k = a <;> simp [hk]

theorem contains_iff_lookup {k : String} {d : List (String × α)} :
    contains k d = true ↔ ∃ v, lookup k d = some v := by
  simp [contains, Option.isSome_iff_exists]

theorem lookup_not_contains {k : String} {d : List (String × α)}
    (h : ¬ contains k d = true) : lookup k d = none := by
  rcases hl : lookup k d with _ | v
  · rfl
  · exact absurd (by simp [contains, hl]) h

theorem lookup_union (k : String) (a b : List (String × α)) :
    lookup k (union a b) =
      match lookup k a with
      | some v => some ((lookup k b).getD v)
      | none => lookup k b := by
  unfold union
  rw [lookup_append]
  have hm := lookup_map_values (fun k0 v0 => (lookup k0 b).getD v0) k a
  rw [hm]
  have hf := lookup_filter_key (fun x => !contains x a) k b
  rw [hf]
  rcases h : lookup k a with _ | v
  · simp [contains, h]
  · simp [contains, h]

theorem lookup_overwrite_self (k : String) (v : α) (d : List (String × α)) :
    lookup k (d.map (fun kv => if kv.1 = k then (k, v) else kv)) =
      (lookup k d).map (fun _ => v) := by
  induction d with
  | nil => simp [lookup]
  | cons kv rest ih =>
    obtain ⟨ka, va⟩ := kv
    simp only [List.map_cons]
    by_cases hk : ka = k
    · rw [if_pos (show (ka, va).1 = k from hk)]
      subst hk
      simp [lookup, ih]
    · rw [if_neg (show ¬ (ka, va).1 = k from hk)]
      simp [lookup, hk, ih]

theorem lookup_overwrite_ne {k' k : String} (h : k' ≠ k) (v : α)
    (d : List (String × α)) :
    lookup k' (d.map (fun kv => if kv.1 = k then (k, v) else kv)) = lookup k' d := by
  induction d with
  | nil => simp [lookup]
  | cons kv rest ih =>
    obtain ⟨ka, va⟩ := kv
    simp only [List.map_cons]
    by_cases hk : ka = k
    · rw [if_pos (show (ka, va).1 = k from hk)]
      subst hk
      simp [lookup, Ne.symm h, ih]
    · rw [if_neg (show ¬ (ka, va).1 = k from hk)]
      simp [lookup, ih]

theorem lookup_assign_self (k : String) (v : α) (d : List (String × α)) :
    lookup k (assign k v d) = some v := by
  unfold assign
  by_cases h : contains k d = true
  · rw [if_pos h, lookup_overwrite_self]
    obtain ⟨w, hw⟩ := contains_iff_lookup.mp h
    simp [hw]
  · rw [if_neg h, lookup_append, lookup_not_contains h]
    simp [lookup]

theorem lookup_assign_ne {k' k : String} (h : k' ≠ k) (v : α) (d : List (String × α)) :
    lookup k' (assign k v d) = lookup k' d := by
  unfold assign
  by_cases hc : contains k d = true
  · rw [if_pos hc]
    exact lookup_overwrite_ne h v d
  · rw [if_neg hc, lookup_append]
    rcases hl : lookup k' d with _ | v'
    · simp [lookup, Ne.symm h]
    · simp

end Dict

/-! ## Claim C1: intention-resolver degradation -/

/-- C1 (amended): the resolver returns the stop-signal list — and raises
nothing — whenever extraction fails, the decoded value is not a dict, or
its `tools` field is missing a list shape or is empty; but a decision
naming a tool that is registered nowhere is returned unchanged (the
resolver never consults the registry — unknown names surface only at
dispatch). -/
theorem parse_intention_degrades_to_stop :
    (∀ r : Except Unit Json, resolverFailure r = true →
      parse_intention_result r = stopList) ∧
    (∀ (kvs : List (String × Json)) (ts : List Json),
      Dict.lookup "tools" kvs = some (Json.arr ts) → ts ≠ [] →
      parse_intention_result (.ok (Json.obj kvs)) = ts) := by
  constructor
  · intro r h
    match r with
    | .error _ => rfl
    | .ok (Json.null) => rfl
    | .ok (Json.bool b) => rfl
    | .ok (Json.num n) => rfl
    | .ok (Json.str s) => rfl
    | .ok (Json.arr xs) => rfl
    | .ok (Json.obj kvs) =>
      simp only [parse_intention_result, resolverFailure] at h ⊢
      rcases hl : (Dict.lookup "tools" kvs).getD (Json.arr stopList) with
        _ | _ | _ | _ | xs | _ <;> try rfl
      rcases xs with _ | ⟨x, rest⟩
      · rfl
      · rw [hl] at h
        exact Bool.noConfusion (show false = true from h)
  · intro kvs ts hl hne
    simp only [parse_intention_result, hl, Option.getD_some]

/-- C1 witness: a non-list `tools` field degrades to the stop list, and a
well-formed singleton decision passes through unchanged. -/
theorem parse_intention_degrades_to_stop_witness :
    parse_intention_result (.ok (Json.obj [("tools", Json.str "x")])) = stopList ∧
    parse_intention_result
      (.ok (Json.obj [("tools", Json.arr [Json.str "search_arxiv(keywords=llm)"])])) =
      [Json.str "search_arxiv(keywords=llm)"] := by
  refine ⟨parse_intention_degrades_to_stop.1 _ (by rfl), ?_⟩
  exact parse_intention_degrades_to_stop.2 _ _ (by rfl) (by simp)

/-- C1 counterexample: a decision naming `nonexistent_tool` — registered in
none of `sampleMgr`'s backends — is returned as-is by the resolver, not
mapped to the stop-signal list, refuting the unknown-tool arm of the
claim. -/
theorem parse_intention_unknown_tool_passthrough :
    parse_intention_result
      (.ok (Json.obj [("tools", Json.arr [Json.str "nonexistent_tool()"])])) =
      [Json.str "nonexistent_tool()"] ∧
    [Json.str "nonexistent_tool()"] ≠ stopList ∧
    sampleMgr.registeredAnywhere (funcNameOf "nonexistent_tool()") = false := by
  refine ⟨rfl, ?_, by decide⟩
  intro h
  have := List.head_eq_of_cons_eq h
  simp [stopList, STOP_SIGNAL] at this

/-! ## Claim C5: registration collisions -/

/-- C5 counterexample: registering a second tool under the name
`search_arxiv`, already present in the registry, does not fail and changes
the registry's state — the registration order and schema list gain a
duplicate entry (and the stored callable is replaced), so the collision is
silently resolved by overwrite rather than rejected. -/
theorem register_overwrites_existing_name :
    ((ToolRegistry.empty.register searchArxivTool).register
        searchArxivV2Tool).registration_order = ["search_arxiv", "search_arxiv"] ∧
    ((ToolRegistry.empty.register searchArxivTool).register
        searchArxivV2Tool).schemas.length = 2 ∧
    (ToolRegistry.empty.register searchArxivTool).registration_order =
      ["search_arxiv"] :=
  ⟨rfl, rfl, rfl⟩

/-- C5 (amended): only the local-tool path checks for duplicates — and only
against other local tools: `register_local_tool` on an existing local name
raises (leaving the manager unchanged), while `ToolRegistry.register`
never fails on a collision: it appends the schema and registration order
again and overwrites the stored callable. -/
theorem registration_collision_policy :
    (∀ (m : AgentToolManager) (name : String)
      (inst : Json → Except String Json) (cfg : Json),
      Dict.contains name m.local_tools = true →
        m.register_local_tool name inst cfg =
          .error ("工具 " ++ name ++ " 已经注册")) ∧
    (∀ (r : ToolRegistry) (f : ToolFunc),
      (r.register f).registration_order = r.registration_order ++ [f.name] ∧
      (r.register f).schemas = r.schemas ++ [f.schema] ∧
      Dict.lookup f.name (r.register f).name_to_callable = some f.exec) := by
  constructor
  · intro m name inst cfg h
    simp [AgentToolManager.register_local_tool, h]
  · intro r f
    exact ⟨rfl, rfl, Dict.lookup_assign_self _ _ _⟩

/-- C5 witness: a concrete duplicate local registration is rejected with
the manager unchanged, at a manager already holding `locate_pdf_text`. -/
theorem registration_collision_policy_witness :
    ({ AgentToolManager.empty with
        local_tools := [("locate_pdf_text", fun _ => .ok Json.null)] } :
      AgentToolManager).register_local_tool "locate_pdf_text"
        (fun _ => .ok Json.null) Json.null =
      .error ("工具 " ++ "locate_pdf_text" ++ " 已经注册") :=
  registration_collision_policy.1 _ _ _ _ (by rfl)

/-! ## The loop unfolding lemmas shared by the loop claims -/

theorem run_tool_loop_not_continue (env : LoopEnv) (fuel step : Nat)
    (tools : List String) (fn resp : String) (st : AgentState)
    (hc : should_continue env.version tools fn = false) :
    run_tool_loop env fuel step tools fn resp st = ⟨[], [], st, .modelStop⟩ := by
  rw [run_tool_loop.eq_def]
  dsimp only
  rw [if_pos (by simp [hc])]

theorem run_tool_loop_zero (env : LoopEnv) (step : Nat)
    (tools : List String) (fn resp : String) (st : AgentState)
    (hc : should_continue env.version tools fn = true) :
    run_tool_loop env 0 step tools fn resp st = ⟨[], [], st, .fuelExhausted⟩ := by
  rw [run_tool_loop]
  rw [if_neg (by simp [hc])]

theorem run_tool_loop_nil (env : LoopEnv) (fuel step : Nat)
    (fn resp : String) (st : AgentState)
    (hc : should_continue env.version [] fn = true) :
    run_tool_loop env (fuel + 1) step [] fn resp st = ⟨[], [], st, .emptyIntention⟩ := by
  rw [run_tool_loop]
  rw [if_neg (by simp [hc])]

theorem run_tool_loop_head_is_stop (env : LoopEnv) (fuel step : Nat)
    (call : String) (rest : List String) (fn resp : String) (st : AgentState)
    (hc : should_continue env.version (call :: rest) fn = true)
    (hs : stop_signal env.version (funcNameOf call) = true) :
    run_tool_loop env (fuel + 1) step (call :: rest) fn resp st =
      ⟨[], [], st, .modelStop⟩ := by
  rw [run_tool_loop]
  rw [if_neg (by simp [hc])]
  simp only [hs, if_true]

theorem run_tool_loop_dispatch (env : LoopEnv) (fuel step : Nat)
    (call : String) (rest : List String) (fn resp : String) (st : AgentState)
    (hc : should_continue env.version (call :: rest) fn = true)
    (hs : stop_signal env.version (funcNameOf call) = false) :
    run_tool_loop env (fuel + 1) step (call :: rest) fn resp st =
      (let r0 := execute_single_tool env step call (funcNameOf call) resp st
       let r := run_tool_loop env fuel (step + 1) (env.intentionOf (step + 1))
         (match env.intentionOf (step + 1) with
          | [] => funcNameOf call
          | next :: _ => funcNameOf next)
         (lastAssistantContent r0.2.conversations resp)
         (agent_reset env (step + 1) (get_tool_intention_state env (step + 1) r0.2))
       ⟨(step, call) :: r.trace, r0.1 ++ r.events, r.state, r.outcome⟩) := by
  rw [run_tool_loop]
  rw [if_neg (by simp [hc])]
  simp only [hs]
  rw [if_neg (by simp)]

/-! ## Claim C2: one dispatch per resolution -/

/-- Every dispatched entry of the while loop is the head of the intention
list current at its resolution index, and the resolution indices along the
trace are strictly increasing (so no resolution dispatches twice). -/
theorem run_tool_loop_trace_spec (env : LoopEnv) :
    ∀ (fuel step : Nat) (tools : List String) (fn resp : String) (st : AgentState),
      (∀ e ∈ (run_tool_loop env fuel step tools fn resp st).trace,
        step ≤ e.1 ∧
          ∃ rest, (if e.1 = step then tools else env.intentionOf e.1) = e.2 :: rest) ∧
      List.Chain' (fun a b => a < b)
        ((run_tool_loop env fuel step tools fn resp st).trace.map Prod.fst) := by
  intro fuel
  induction fuel with
  | zero =>
    intro step tools fn resp st
    rcases hc : should_continue env.version tools fn with _ | _
    · rw [run_tool_loop_not_continue env 0 step tools fn resp st hc]
      simp
    · rw [run_tool_loop_zero env step tools fn resp st hc]
      simp
  | succ fuel ih =>
    intro step tools fn resp st
    rcases hc : should_continue env.version tools fn with _ | _
    · rw [run_tool_loop_not_continue env (fuel + 1) step tools fn resp st hc]
      simp
    · rcases tools with _ | ⟨call, rest⟩
      · rw [run_tool_loop_nil env fuel step fn resp st hc]
        simp
      · rcases hs : stop_signal env.version (funcNameOf call) with _ | _
        · rw [run_tool_loop_dispatch env fuel step call rest fn resp st hc hs]
          dsimp only
          set fnN := (match env.intentionOf (step + 1) with
            | [] => funcNameOf call
            | next :: _ => funcNameOf next) with hfnN
          set respN := lastAssistantContent
            (execute_single_tool env step call (funcNameOf call) resp st).2.conversations
            resp with hrespN
          set stN := agent_reset env (step + 1)
            (get_tool_intention_state env (step + 1)
              (execute_single_tool env step call (funcNameOf call) resp st).2) with hstN
          have hih := ih (step + 1) (env.intentionOf (step + 1)) fnN respN stN
          constructor
          · intro e he
            rcases List.mem_cons.mp he with he0 | he1
            · subst he0
              exact ⟨le_refl _, ⟨rest, by simp⟩⟩
            · obtain ⟨hle, rest', hr⟩ := hih.1 e he1
              have hne : ¬ e.1 = step := by omega
              refine ⟨by omega, ⟨rest', ?_⟩⟩
              rw [if_neg hne]
              by_cases h1 : e.1 = step + 1
              · rw [if_pos h1] at hr
                rw [h1]
                exact hr
              · rw [if_neg h1] at hr
                exact hr
          · rw [List.map_cons, List.chain'_cons']
            refine ⟨?_, hih.2⟩
            intro b hb
            rcases htr : (run_tool_loop env fuel (step + 1) (env.intentionOf (step + 1))
                fnN respN stN).trace with _ | ⟨e', t'⟩
            · rw [htr] at hb
              simp at hb
            · rw [htr] at hb
              simp at hb
              subst hb
              have hmem := hih.1 e' (by rw [htr]; exact List.mem_cons_self _ _)
              have := hmem.1
              simp only []
              omega
        · rw [run_tool_loop_head_is_stop env fuel step call rest fn resp st hc hs]
          simp

/-- C2 (confirmed): per resolution at most one tool is dispatched, and it
is always the first element of that resolution's decoded intention list;
trailing elements are never dispatched (any dispatch with resolution index
`i` takes the head of the list the `i`-th resolution returned, and the
indices along the trace are strictly increasing). -/
theorem loop_dispatches_only_first_intention (env : LoopEnv) (fuel : Nat)
    (intention_tools : List String) (resp : String) (st : AgentState) :
    (∀ e ∈ (execute_tool_loop_common env fuel intention_tools resp st).trace,
      ∃ rest, (if e.1 = 0 then intention_tools else env.intentionOf e.1) = e.2 :: rest) ∧
    List.Chain' (fun a b => a < b)
      ((execute_tool_loop_common env fuel intention_tools resp st).trace.map Prod.fst) := by
  rcases intention_tools with _ | ⟨call, rest⟩
  · simp [execute_tool_loop_common]
  · unfold execute_tool_loop_common
    dsimp only
    rcases hs : stop_signal env.version (funcNameOf call) with _ | _
    · rw [if_neg (by simp [hs])]
      have h := run_tool_loop_trace_spec env fuel 0 (call :: rest) (funcNameOf call) resp st
      exact ⟨fun e he => (h.1 e he).2, h.2⟩
    · rw [if_pos (by simp [hs])]
      simp

/-- C2 witness: in a concrete two-element decision
`["search_arxiv(keywords=llm)", "CodeRunner()"]`, the dispatched entry is
the head of that list. -/
theorem loop_dispatches_only_first_intention_witness :
    ∃ rest, (if (0 : Nat) = 0 then ["search_arxiv(keywords=llm)", "CodeRunner()"]
      else sampleEnv.intentionOf 0) = "search_arxiv(keywords=llm)" :: rest := by
  have ht : (execute_tool_loop_common sampleEnv 1
      ["search_arxiv(keywords=llm)", "CodeRunner()"] "" initialAgentState).trace =
      [(0, "search_arxiv(keywords=llm)")] := by rfl
  exact (loop_dispatches_only_first_intention sampleEnv 1
    ["search_arxiv(keywords=llm)", "CodeRunner()"] "" initialAgentState).1
    (0, "search_arxiv(keywords=llm)") (by rw [ht]; exact List.mem_cons_self _ _)

/-! ## Claim C3: unregistered dispatch is isolated -/

/-- `execute_tool` on a name found in none of the three backends raises
`ValueError("工具 ... 未找到")`. -/
theorem execute_tool_not_found (m : AgentToolManager)
    (callTool : Nat → String → Json → Except String Json)
    (name : String) (kwargs : Json)
    (h : m.registeredAnywhere name = false) :
    m.execute_tool callTool name kwargs = .error ("工具 " ++ name ++ " 未找到") := by
  unfold AgentToolManager.registeredAnywhere at h
  simp only [Bool.or_eq_false_iff] at h
  obtain ⟨⟨h1, h2⟩, h3⟩ := h
  unfold AgentToolManager.execute_tool
  simp [h1, h2, h3]

/-- C3 (amended): dispatching a tool name registered in none of the three
backends never raises to the loop: `_execute_single_tool` returns exactly a
running `tool_start` event and a failed `tool_error` event, the
conversation state is unchanged — nothing is appended as an observation in
the error path — and the while loop proceeds to the next intention
resolution (`intentionOf (step+1)`) instead of terminating. -/
theorem unregistered_dispatch_isolated (env : LoopEnv) (step : Nat)
    (call resp : String) (st : AgentState)
    (h : env.mgr.registeredAnywhere (funcNameOf call) = false) :
    (execute_single_tool env step call (funcNameOf call) resp st =
      ([create_tool_event "tool_start" (funcNameOf call)
          (Json.obj (parse_tool_params env st call (funcNameOf call) resp)) "running",
        create_tool_event "tool_error" (funcNameOf call)
          (Json.str ("工具 " ++ funcNameOf call ++ " 未找到")) "failed"], st)) ∧
    (create_tool_event "tool_error" (funcNameOf call)
        (Json.str ("工具 " ++ funcNameOf call ++ " 未找到")) "failed").status = "failed" ∧
    (∀ (fuel : Nat) (rest : List String) (fn : String),
      should_continue env.version (call :: rest) fn = true →
      stop_signal env.version (funcNameOf call) = false →
      run_tool_loop env (fuel + 1) step (call :: rest) fn resp st =
        (let r := run_tool_loop env fuel (step + 1) (env.intentionOf (step + 1))
          (match env.intentionOf (step + 1) with
           | [] => funcNameOf call
           | next :: _ => funcNameOf next)
          (lastAssistantContent st.conversations resp)
          (agent_reset env (step + 1) (get_tool_intention_state env (step + 1) st))
         ⟨(step, call) :: r.trace,
          (execute_single_tool env step call (funcNameOf call) resp st).1 ++ r.events,
          r.state, r.outcome⟩)) := by
  have hex : execute_single_tool env step call (funcNameOf call) resp st =
      ([create_tool_event "tool_start" (funcNameOf call)
          (Json.obj (parse_tool_params env st call (funcNameOf call) resp)) "running",
        create_tool_event "tool_error" (funcNameOf call)
          (Json.str ("工具 " ++ funcNameOf call ++ " 未找到")) "failed"], st) := by
    unfold execute_single_tool
    dsimp only
    rw [execute_tool_not_found env.mgr env.mcpCall (funcNameOf call)
      (Json.obj (parse_tool_params env st call (funcNameOf call) resp)) h]
  refine ⟨hex, rfl, ?_⟩
  intro fuel rest fn hc hs
  rw [run_tool_loop_dispatch env fuel step call rest fn resp st hc hs]
  dsimp only
  rw [hex]

/-- C3 witness: dispatching `nonexistent_tool()` over the concrete
`sampleMgr` leaves the state untouched and emits the start/error pair. -/
theorem unregistered_dispatch_isolated_witness :
    (execute_single_tool sampleEnvUnknown 0 "nonexistent_tool()"
        (funcNameOf "nonexistent_tool()") "" initialAgentState).2 =
      initialAgentState := by
  have h := (unregistered_dispatch_isolated sampleEnvUnknown 0 "nonexistent_tool()" ""
    initialAgentState (by decide)).1
  rw [h]

/-- C3 counterexample: in the error path nothing is appended to the
conversation state — dispatching an unregistered name over a state holding
one user message leaves `conversations` (and every projection) exactly as
they were, while the claim asserts the failed invocation is appended as an
observation; only the `tool_start`/`tool_error` event pair is emitted. -/
theorem unregistered_dispatch_appends_no_observation :
    (execute_single_tool sampleEnvUnknown 0 "nonexistent_tool()" "nonexistent_tool" ""
        (addUserMessage initialAgentState "你好")).2 =
      addUserMessage initialAgentState "你好" ∧
    ((execute_single_tool sampleEnvUnknown 0 "nonexistent_tool()" "nonexistent_tool" ""
        (addUserMessage initialAgentState "你好")).1.map ToolEvent.type) =
      ["tool_start", "tool_error"] :=
  ⟨rfl, rfl⟩

/-! ## Claim C4: no step budget exists -/

/-- With a constant non-terminating decision stream the while loop never
stops of its own accord: for every observation bound it is still cycling. -/
theorem run_tool_loop_never_stops (env : LoopEnv) (c : String)
    (hall : ∀ i, env.intentionOf i = [c])
    (hm : c ≠ STOP_SIGNAL)
    (hs : stop_signal env.version (funcNameOf c) = false) :
    ∀ (fuel step : Nat) (resp : String) (st : AgentState),
      (run_tool_loop env fuel step [c] (funcNameOf c) resp st).outcome =
        .fuelExhausted := by
  have hcont : ∀ fn, fn = funcNameOf c →
      should_continue env.version [c] fn = true := by
    intro fn hfn
    subst hfn
    rcases hv : env.version with _ | _ <;> rw [hv] at hs
    · simp only [should_continue, List.mem_singleton, decide_not]
      simp only [Bool.not_eq_true']
      simp only [decide_eq_false_iff_not]
      exact fun hh => hm hh.symm
    · simp [should_continue, hs]
  intro fuel
  induction fuel with
  | zero =>
    intro step resp st
    rw [run_tool_loop_zero env step [c] (funcNameOf c) resp st (hcont _ rfl)]
  | succ fuel ih =>
    intro step resp st
    rw [run_tool_loop_dispatch env fuel step c [] (funcNameOf c) resp st
      (hcont _ rfl) hs]
    dsimp only
    rw [hall (step + 1)]
    exact ih (step + 1) _ _

/-- C4: the orchestration loop has no step-budget ceiling: for every
environment whose resolver forever returns the same single
non-terminating tool call, and for every bound `fuel`, the loop is still
running when the bound expires — it never transitions to a terminated
state with a budget diagnostic (no such diagnostic exists in the code). -/
theorem loop_lacks_step_budget (env : LoopEnv) (c : String)
    (resp : String) (st : AgentState)
    (hall : ∀ i, env.intentionOf i = [c])
    (hm : c ≠ STOP_SIGNAL)
    (hs : stop_signal env.version (funcNameOf c) = false) :
    ∀ fuel, (execute_tool_loop_common env fuel (env.intentionOf 0) resp st).outcome =
      .fuelExhausted := by
  intro fuel
  rw [hall 0]
  unfold execute_tool_loop_common
  dsimp only
  rw [if_neg (by simp [hs])]
  exact run_tool_loop_never_stops env c hall hm hs fuel 0 resp st

/-- C4 witness: the concrete `sampleEnv` (constant `search_arxiv`
decisions) is still running after 3, and after 25, observed iterations. -/
theorem loop_lacks_step_budget_witness :
    (execute_tool_loop_common sampleEnv 3 (sampleEnv.intentionOf 0) ""
        initialAgentState).outcome = .fuelExhausted ∧
    (execute_tool_loop_common sampleEnv 25 (sampleEnv.intentionOf 0) ""
        initialAgentState).outcome = .fuelExhausted :=
  ⟨loop_lacks_step_budget sampleEnv "search_arxiv(keywords=llm)" "" initialAgentState
      (fun _ => rfl) (by decide) (by decide) 3,
    loop_lacks_step_budget sampleEnv "search_arxiv(keywords=llm)" "" initialAgentState
      (fun _ => rfl) (by decide) (by decide) 25⟩

/-! ## Claim C6: team-context merge-patch -/

theorem tcFieldOk_null (f : String) : tcFieldOk (f, Json.null) = true := by
  unfold tcFieldOk
  split
  · rfl
  · split
    · rfl
    · rfl

theorem validateTC_of_all {d : List (String × Json)} (h : d.all tcFieldOk = true) :
    validateTC d = some d := by
  unfold validateTC
  rw [if_pos h]

theorem all_filter_of_all {d : List (String × Json)} {p q : String × Json → Bool}
    (h : d.all q = true) : (d.filter p).all q = true := by
  rw [List.all_eq_true] at h ⊢
  exact fun kv hkv => h kv (List.mem_of_mem_filter hkv)

theorem dumpAll_all {d : List (String × Json)} (h : d.all tcFieldOk = true) :
    (dumpAll d).all tcFieldOk = true := by
  rw [List.all_eq_true] at h ⊢
  intro kv hkv
  unfold dumpAll at hkv
  rcases List.mem_append.mp hkv with hm | hm
  · obtain ⟨f, hf, hfe⟩ := List.mem_map.mp hm
    rcases hl : Dict.lookup f d with _ | v
    · rw [hl] at hfe
      rw [← hfe]
      exact tcFieldOk_null f
    · rw [hl] at hfe
      rw [← hfe]
      exact h (f, v) (Dict.lookup_mem hl)
  · exact h kv (List.mem_of_mem_filter hm)

theorem dumpSet_all {d : List (String × Json)} (h : d.all tcFieldOk = true) :
    (dumpSetNonNull d).all tcFieldOk = true := by
  rw [List.all_eq_true] at h ⊢
  intro kv hkv
  unfold dumpSetNonNull at hkv
  have hkv' := List.mem_of_mem_filter hkv
  rcases List.mem_append.mp hkv' with hm | hm
  · obtain ⟨f, hf, hfe⟩ := List.mem_filterMap.mp hm
    rcases hl : Dict.lookup f d with _ | v
    · rw [hl] at hfe
      simp at hfe
    · rw [hl] at hfe
      simp only [Option.map_some', Option.some.injEq] at hfe
      rw [← hfe]
      exact h (f, v) (Dict.lookup_mem hl)
  · exact h kv (List.mem_of_mem_filter hm)

theorem union_all {a b : List (String × Json)} (ha : a.all tcFieldOk = true)
    (hb : b.all tcFieldOk = true) : (Dict.union a b).all tcFieldOk = true := by
  rw [List.all_eq_true] at ha hb ⊢
  intro kv hkv
  unfold Dict.union at hkv
  rcases List.mem_append.mp hkv with hm | hm
  · obtain ⟨kv0, hkv0, he⟩ := List.mem_map.mp hm
    rcases hl : Dict.lookup kv0.1 b with _ | w
    · rw [hl] at he
      simp only [Option.getD_none] at he
      rw [← he]
      exact ha kv0 hkv0
    · rw [hl] at he
      simp only [Option.getD_some] at he
      rw [← he]
      exact hb (kv0.1, w) (Dict.lookup_mem hl)
  · exact hb kv (List.mem_of_mem_filter hm)

theorem lookup_dumpAll (k : String) (d : List (String × Json)) :
    Dict.lookup k (dumpAll d) =
      if k ∈ declaredFields then some ((Dict.lookup k d).getD Json.null)
      else Dict.lookup k d := by
  unfold dumpAll
  rw [Dict.lookup_append, Dict.lookup_mapfun]
  by_cases hk : k ∈ declaredFields
  · rw [if_pos hk, if_pos hk]
  · rw [if_neg hk, if_neg hk]
    have hf := Dict.lookup_filter_key (fun x => decide (x ∉ declaredFields)) k d
    simp only at hf
    rw [hf, if_pos (by simpa using hk)]

theorem lookup_filterMap_decl (d : List (String × Json)) (k : String)
    (l : List String) :
    Dict.lookup k (l.filterMap (fun f => (Dict.lookup f d).map (fun v => (f, v)))) =
      if k ∈ l then Dict.lookup k d else none := by
  induction l with
  | nil => simp [Dict.lookup]
  | cons f rest ih =>
    rcases hf : Dict.lookup f d with _ | v
    · rw [List.filterMap_cons]
      rw [hf]
      simp only [Option.map_none']
      rw [ih]
      by_cases hfk : f = k
      · subst hfk
        rw [if_pos (List.mem_cons_self f rest), hf]
        by_cases hk : f ∈ rest
        · rw [if_pos hk]
        · rw [if_neg hk]
      · by_cases hk : k ∈ rest
        · rw [if_pos hk, if_pos (List.mem_cons_of_mem f hk)]
        · rw [if_neg hk, if_neg ?hne]
          case hne =>
            intro hmem
            rcases List.mem_cons.mp hmem with h1 | h2
            · exact hfk h1.symm
            · exact hk h2
    · rw [List.filterMap_cons]
      rw [hf]
      simp only [Option.map_some']
      by_cases hfk : f = k
      · subst hfk
        rw [if_pos (List.mem_cons_self f rest)]
        simp [Dict.lookup, hf]
      · rw [show Dict.lookup k ((f, v) :: rest.filterMap
            (fun f => (Dict.lookup f d).map (fun v => (f, v)))) =
            Dict.lookup k (rest.filterMap (fun f => (Dict.lookup f d).map (fun v => (f, v))))
          from by simp [Dict.lookup, hfk]]
        rw [ih]
        by_cases hk : k ∈ rest
        · rw [if_pos hk, if_pos (List.mem_cons_of_mem f hk)]
        · rw [if_neg hk, if_neg ?hne2]
          case hne2 =>
            intro hmem
            rcases List.mem_cons.mp hmem with h1 | h2
            · exact hfk h1.symm
            · exact hk h2

theorem keys_filter_sublist (p : String × Json → Bool) (d : List (String × Json)) :
    (Dict.keys (d.filter p)).Sublist (Dict.keys d) :=
  List.Sublist.map Prod.fst (List.filter_sublist d)

theorem keys_filterMap_decl (d : List (String × Json)) (l : List String) :
    Dict.keys (l.filterMap (fun f => (Dict.lookup f d).map (fun v => (f, v)))) =
      l.filter (fun f => (Dict.lookup f d).isSome) := by
  induction l with
  | nil => rfl
  | cons f rest ih =>
    rw [List.filterMap_cons, List.filter_cons]
    rcases hf : Dict.lookup f d with _ | v <;>
      simp only [Dict.keys] at ih ⊢ <;>
      simp [hf, ih]

theorem declaredFields_nodup : declaredFields.Nodup := by decide

theorem dumpSet_base_keys_nodup {d : List (String × Json)}
    (hnd : (Dict.keys d).Nodup) :
    (Dict.keys ((declaredFields.filterMap (fun f =>
        (Dict.lookup f d).map (fun v => (f, v)))) ++
      d.filter (fun kv => kv.1 ∉ declaredFields))).Nodup := by
  rw [show Dict.keys ((declaredFields.filterMap (fun f =>
        (Dict.lookup f d).map (fun v => (f, v)))) ++
      d.filter (fun kv => kv.1 ∉ declaredFields)) =
      Dict.keys (declaredFields.filterMap (fun f =>
        (Dict.lookup f d).map (fun v => (f, v)))) ++
      Dict.keys (d.filter (fun kv => kv.1 ∉ declaredFields))
    from List.map_append _ _ _]
  apply List.Nodup.append
  · rw [keys_filterMap_decl]
    exact List.Nodup.filter _ declaredFields_nodup
  · exact List.Nodup.sublist (keys_filter_sublist _ d) hnd
  · intro x hx hx'
    rw [keys_filterMap_decl] at hx
    have hxd : x ∈ declaredFields := List.mem_of_mem_filter hx
    obtain ⟨kv, hkv, hkx⟩ := List.mem_map.mp hx'
    have := List.of_mem_filter hkv
    rw [hkx] at this
    simp at this
    exact this hxd

theorem lookup_filter_nonnull {L : List (String × Json)}
    (hnd : (Dict.keys L).Nodup) (k : String) :
    Dict.lookup k (L.filter (fun kv => ! kv.2.isNull)) =
      match Dict.lookup k L with
      | some v => if v.isNull then none else some v
      | none => none := by
  induction L with
  | nil => simp [Dict.lookup]
  | cons kv rest ih =>
    obtain ⟨ka, va⟩ := kv
    have hnd' : (Dict.keys rest).Nodup := (List.nodup_cons.mp hnd).2
    have hka : ka ∉ Dict.keys rest := (List.nodup_cons.mp hnd).1
    rw [List.filter_cons]
    by_cases hk : ka = k
    · subst hk
      rcases hv : va.isNull with _ | _
      · rw [if_pos (by simp [hv])]
        simp [Dict.lookup, hv]
      · rw [if_neg (by simp [hv])]
        rw [ih hnd']
        have hnone : Dict.lookup ka rest = none :=
          Dict.lookup_eq_none_of_not_mem_keys hka
        simp [Dict.lookup, hnone, hv]
    · have hskip : Dict.lookup k ((ka, va) :: rest) = Dict.lookup k rest := by
        simp [Dict.lookup, hk]
      rcases hv : va.isNull with _ | _
      · rw [if_pos (by simp [hv])]
        have hskip2 : Dict.lookup k ((ka, va) :: rest.filter (fun kv => ! kv.2.isNull)) =
            Dict.lookup k (rest.filter (fun kv => ! kv.2.isNull)) := by
          simp [Dict.lookup, hk]
        rw [hskip2, ih hnd', hskip]
      · rw [if_neg (by simp [hv])]
        rw [ih hnd', hskip]

theorem lookup_dumpSet {d : List (String × Json)} (hnd : (Dict.keys d).Nodup)
    (k : String) :
    Dict.lookup k (dumpSetNonNull d) =
      match Dict.lookup k d with
      | some v => if v.isNull then none else some v
      | none => none := by
  unfold dumpSetNonNull
  rw [lookup_filter_nonnull (dumpSet_base_keys_nodup hnd) k]
  rw [Dict.lookup_append, lookup_filterMap_decl]
  have hf := Dict.lookup_filter_key (fun x => decide (x ∉ declaredFields)) k d
  simp only at hf
  rw [hf]
  by_cases hk : k ∈ declaredFields
  · rw [if_pos hk, if_neg (by simpa using hk)]
    rcases hl : Dict.lookup k d with _ | v <;> rfl
  · rw [if_neg hk, if_pos (by simpa using hk)]

/-- Unfolding `update_team_context` on a fresh state whose context and
patch are well-typed: the model caches the merged dict and the in-memory
context is its sanitized dump. -/
theorem update_team_context_eq (C P : List (String × Json))
    (hC : C.all tcFieldOk = true) (hP : P.all tcFieldOk = true) :
    update_team_context ⟨C, none⟩ P =
      ⟨Dict.erase "answer"
        (dumpAll (Dict.union (dumpAll C) (dumpSetNonNull (Dict.erase "answer" P)))),
       some (Dict.union (dumpAll C) (dumpSetNonNull (Dict.erase "answer" P)))⟩ := by
  have hsan : (Dict.erase "answer" P).all tcFieldOk = true := all_filter_of_all hP
  have hCv : validateTC C = some C := validateTC_of_all hC
  have hsv : validateTC (Dict.erase "answer" P) = some (Dict.erase "answer" P) :=
    validateTC_of_all hsan
  have hmv : validateTC (Dict.union (dumpAll C) (dumpSetNonNull (Dict.erase "answer" P))) =
      some (Dict.union (dumpAll C) (dumpSetNonNull (Dict.erase "answer" P))) :=
    validateTC_of_all (union_all (dumpAll_all hC) (dumpSet_all hsan))
  simp only [update_team_context, merge_patch, hCv, hsv, hmv]

/-- Unfolding `update_team_context` on a state with a cached well-typed
model and a well-typed patch. -/
theorem update_team_context_model_eq (M P tc : List (String × Json))
    (hM : M.all tcFieldOk = true) (hP : P.all tcFieldOk = true) :
    update_team_context ⟨tc, some M⟩ P =
      ⟨Dict.erase "answer"
        (dumpAll (Dict.union (dumpAll M) (dumpSetNonNull (Dict.erase "answer" P)))),
       some (Dict.union (dumpAll M) (dumpSetNonNull (Dict.erase "answer" P)))⟩ := by
  have hsan : (Dict.erase "answer" P).all tcFieldOk = true := all_filter_of_all hP
  have hsv : validateTC (Dict.erase "answer" P) = some (Dict.erase "answer" P) :=
    validateTC_of_all hsan
  have hmv : validateTC (Dict.union (dumpAll M) (dumpSetNonNull (Dict.erase "answer" P))) =
      some (Dict.union (dumpAll M) (dumpSetNonNull (Dict.erase "answer" P))) :=
    validateTC_of_all (union_all (dumpAll_all hM) (dumpSet_all hsan))
  simp only [update_team_context, merge_patch, hsv, hmv]

/-- Merging the same already-dumped patch on top of an earlier merge result
changes no binding: the re-merge is invisible key by key. -/
theorem lookup_remerge_eq (C q : List (String × Json)) (k : String) :
    Dict.lookup k (Dict.union (dumpAll (Dict.union (dumpAll C) q)) q) =
      Dict.lookup k (Dict.union (dumpAll C) q) := by
  have hM2 := Dict.lookup_union k (dumpAll (Dict.union (dumpAll C) q)) q
  have hM := Dict.lookup_union k (dumpAll C) q
  have hDAM := lookup_dumpAll k (Dict.union (dumpAll C) q)
  have hDAC := lookup_dumpAll k C
  by_cases hdk : k ∈ declaredFields
  · rw [if_pos hdk] at hDAM hDAC
    rw [hDAC] at hM
    have hMk : Dict.lookup k (Dict.union (dumpAll C) q) =
        some ((Dict.lookup k q).getD ((Dict.lookup k C).getD Json.null)) := by
      rw [hM]
    rw [hM2, hDAM, hMk]
    rcases hq : Dict.lookup k q with _ | w <;> simp
  · rw [if_neg hdk] at hDAM hDAC
    rw [hDAC] at hM
    rw [hM2, hDAM, hM]
    rcases hq : Dict.lookup k q with _ | w <;>
      rcases hc : Dict.lookup k C with _ | v <;> simp

/-- C6 (amended): starting from a fresh manager over a well-typed context
dict `C` and patch `P` (both with the unique keys of Python dicts and
types accepted by `TeamContextModel`), `update_team_context` is idempotent
up to dict equality (applying `P` twice yields the same `team_context`
binding for every key as applying it once); keys of `P` carrying non-null
values overwrite the same keys of `C`; null-valued keys of `P` are dropped
by Pydantic's `exclude_none` and do *not* overwrite; keys absent from `P`
keep their `C` value; and after every update — for arbitrary states and
patches — the disallowed key `answer` is absent from the resulting
`team_context`. -/
theorem team_context_merge_properties (C P : List (String × Json))
    (hC : C.all tcFieldOk = true) (hP : P.all tcFieldOk = true)
    (hnd : (Dict.keys P).Nodup) :
    (∀ k : String,
      Dict.lookup k
          (update_team_context (update_team_context ⟨C, none⟩ P) P).team_context =
        Dict.lookup k (update_team_context ⟨C, none⟩ P).team_context) ∧
    (∀ (k : String) (v : Json), Dict.lookup k P = some v → k ≠ "answer" →
      v.isNull = false →
      Dict.lookup k (update_team_context ⟨C, none⟩ P).team_context = some v) ∧
    (∀ (k : String) (v : Json), Dict.lookup k P = none → k ≠ "answer" →
      Dict.lookup k C = some v →
      Dict.lookup k (update_team_context ⟨C, none⟩ P).team_context = some v) ∧
    (∀ (s : TCState) (Q : List (String × Json)),
      Dict.lookup "answer" (update_team_context s Q).team_context = none) := by
  have hsan : (Dict.erase "answer" P).all tcFieldOk = true := all_filter_of_all hP
  have hndsan : (Dict.keys (Dict.erase "answer" P)).Nodup :=
    List.Nodup.sublist (keys_filter_sublist _ P) hnd
  have hMall : (Dict.union (dumpAll C)
      (dumpSetNonNull (Dict.erase "answer" P))).all tcFieldOk = true :=
    union_all (dumpAll_all hC) (dumpSet_all hsan)
  have h1 := update_team_context_eq C P hC hP
  have h2 := update_team_context_model_eq
    (Dict.union (dumpAll C) (dumpSetNonNull (Dict.erase "answer" P))) P
    (Dict.erase "answer"
      (dumpAll (Dict.union (dumpAll C) (dumpSetNonNull (Dict.erase "answer" P)))))
    hMall hP
  have hqk : ∀ k, k ≠ "answer" →
      Dict.lookup k (dumpSetNonNull (Dict.erase "answer" P)) =
        match Dict.lookup k P with
        | some v => if v.isNull then none else some v
        | none => none := by
    intro k hk
    rw [lookup_dumpSet hndsan k, Dict.lookup_erase, if_neg hk]
  refine ⟨?idem, ?owr, ?prsv, ?ans⟩
  case idem =>
    intro k
    rw [h1, h2]
    dsimp only
    rw [Dict.lookup_erase, Dict.lookup_erase]
    by_cases hk : k = "answer"
    · rw [if_pos hk, if_pos hk]
    · rw [if_neg hk, if_neg hk]
      rw [lookup_dumpAll k, lookup_dumpAll k]
      by_cases hdk : k ∈ declaredFields
      · rw [if_pos hdk, if_pos hdk, lookup_remerge_eq]
      · rw [if_neg hdk, if_neg hdk, lookup_remerge_eq]
  case owr =>
    intro k v hkv hk hv
    rw [h1]
    dsimp only
    rw [Dict.lookup_erase, if_neg hk, lookup_dumpAll k]
    have hq : Dict.lookup k (dumpSetNonNull (Dict.erase "answer" P)) = some v := by
      rw [hqk k hk, hkv]
      simp [hv]
    have hMk := Dict.lookup_union k (dumpAll C)
      (dumpSetNonNull (Dict.erase "answer" P))
    rw [hq] at hMk
    by_cases hdk : k ∈ declaredFields
    · rw [if_pos hdk]
      rcases hdac : Dict.lookup k (dumpAll C) with _ | u <;> rw [hdac] at hMk
      · rw [hMk]
        rfl
      · rw [hMk]
        rfl
    · rw [if_neg hdk]
      rcases hdac : Dict.lookup k (dumpAll C) with _ | u <;> rw [hdac] at hMk
      · rw [hMk]
      · rw [hMk]
        rfl
  case prsv =>
    intro k v hkP hk hkC
    rw [h1]
    dsimp only
    rw [Dict.lookup_erase, if_neg hk, lookup_dumpAll k]
    have hq : Dict.lookup k (dumpSetNonNull (Dict.erase "answer" P)) = none := by
      rw [hqk k hk, hkP]
    have hMk := Dict.lookup_union k (dumpAll C)
      (dumpSetNonNull (Dict.erase "answer" P))
    rw [hq] at hMk
    have hdac := lookup_dumpAll k C
    by_cases hdk : k ∈ declaredFields
    · rw [if_pos hdk] at hdac
      rw [hdac, hkC] at hMk
      rw [if_pos hdk, hMk]
      rfl
    · rw [if_neg hdk] at hdac
      rw [hdac, hkC] at hMk
      rw [if_neg hdk, hMk]
      rfl
  case ans =>
    intro s Q
    unfold update_team_context
    dsimp only
    split
    · split
      · dsimp only
        rw [Dict.lookup_erase]
        simp
      · dsimp only
        rw [Dict.lookup_erase]
        simp
    · dsimp only
      rw [Dict.lookup_erase]
      simp

/-- C6 witness: at a concrete context `{team_goal: "g"}` and patch
`{k: "b", answer: "zz"}`, the patched key lands in the context. -/
theorem team_context_merge_properties_witness :
    Dict.lookup "k" (update_team_context ⟨[("team_goal", Json.str "g")], none⟩
        [("k", Json.str "b"), ("answer", Json.str "zz")]).team_context =
      some (Json.str "b") :=
  (team_context_merge_properties [("team_goal", Json.str "g")]
      [("k", Json.str "b"), ("answer", Json.str "zz")] (by rfl) (by rfl)
      (by decide)).2.1 "k" (Json.str "b") (by rfl) (by decide) (by rfl)

/-- C6 counterexample: a null-valued patch key does not overwrite — merging
`{k: null}` into `{k: "a"}` leaves `k = "a"` (Pydantic's `exclude_none`
drops the key from the validated patch), contradicting the claim that
every key of `P` overwrites the same key of `C`. -/
theorem merge_null_value_not_overwritten :
    Dict.lookup "k" (update_team_context ⟨[("k", Json.str "a")], none⟩
        [("k", Json.null)]).team_context = some (Json.str "a") ∧
    some (Json.str "a") ≠ some Json.null := by
  refine ⟨by rfl, ?_⟩
  intro h
  have := Option.some.inj h
  exact Json.noConfusion this

/-! ## Claim C7: snapshots are per-file best-effort, not atomic -/

/-- C7 (amended): each artifact of `_save_with_session` is written
independently: an artifact whose write succeeds holds the new state, one
whose write fails keeps its old content, and one artifact's failure never
prevents the later writes from being attempted (nothing is raised). -/
theorem save_is_per_file_best_effort (st : AgentState) (fs : SessionFiles)
    (ok : String → Bool) :
    (save_with_session st fs ok).conversations =
      (if ok "conversations" then some (Json.arr st.conversations)
       else fs.conversations) ∧
    (save_with_session st fs ok).display =
      (if ok "display" then some st.display_conversations else fs.display) ∧
    (save_with_session st fs ok).full =
      (if ok "full" then some st.full_context_conversations else fs.full) ∧
    (save_with_session st fs ok).tools =
      (if ok "tools" then some (Json.arr st.tool_conversations) else fs.tools) ∧
    (save_with_session st fs ok).tool_execute =
      (if ok "tool_execute" then some st.tool_execute_conversations
       else fs.tool_execute) ∧
    (save_with_session st fs ok).team_context =
      (if ok "team_context" then some (Json.obj (match st.team.model with
        | some m => dumpAll m
        | none => st.team.team_context)) else fs.team_context) := by
  unfold save_with_session save_team_context
  dsimp only
  refine ⟨?_, ?_, ?_, ?_, ?_, ?_⟩ <;>
    simp only [apply_ite SessionFiles.conversations, apply_ite SessionFiles.display,
      apply_ite SessionFiles.full, apply_ite SessionFiles.tools,
      apply_ite SessionFiles.tool_execute, apply_ite SessionFiles.team_context,
      ite_self]

/-- C7 witness: with every write succeeding, every artifact holds the new
state (evaluated at the initial state over empty files). -/
theorem save_is_per_file_best_effort_witness :
    (save_with_session initialAgentState ⟨none, none, none, none, none, none⟩
        (fun _ => true)).conversations = some (Json.arr []) := by
  have h := (save_is_per_file_best_effort initialAgentState
    ⟨none, none, none, none, none, none⟩ (fun _ => true)).1
  rw [h]
  rfl

/-- C7 counterexample: one failing write leaves a mix of old and new
artifacts on disk — with only the `display` write failing, the snapshot
leaves the new conversations beside the old display text, refuting
all-or-none atomicity. -/
theorem snapshot_not_atomic :
    (save_with_session
        { initialAgentState with
            conversations := [mkMsg "user" "hi"],
            display_conversations := "NEW" }
        ⟨some (Json.arr []), some "OLD", some "", some (Json.arr []), some "", none⟩
        (fun key => key != "display")).conversations =
      some (Json.arr [mkMsg "user" "hi"]) ∧
    (save_with_session
        { initialAgentState with
            conversations := [mkMsg "user" "hi"],
            display_conversations := "NEW" }
        ⟨some (Json.arr []), some "OLD", some "", some (Json.arr []), some "", none⟩
        (fun key => key != "display")).display = some "OLD" ∧
    ("OLD" : String) ≠ "NEW" :=
  ⟨by rfl, by rfl, by decide⟩

/-! ## Claim C8: snapshot followed by restore reproduces the transcript -/

/-- `load_team_context` touches only the team-context slice: every
conversation projection passes through unchanged. -/
theorem load_team_context_projections (fs : SessionFiles) (st : AgentState) :
    (load_team_context fs st).conversations = st.conversations ∧
    (load_team_context fs st).tool_conversations = st.tool_conversations ∧
    (load_team_context fs st).display_conversations = st.display_conversations ∧
    (load_team_context fs st).full_context_conversations =
      st.full_context_conversations := by
  unfold load_team_context
  refine ⟨?_, ?_, ?_, ?_⟩ <;> (repeat' split) <;> rfl

/-- C8 (confirmed): a snapshot through `_save_with_session` with every
write succeeding, followed by `restore_from_session_files` on a fresh
state manager over the same session files, reproduces the transcript:
the restored display and full texts are byte-for-byte the saved strings,
and the message list and tool-conversation list are the saved lists. -/
theorem snapshot_restore_roundtrip (st : AgentState) (fs0 : SessionFiles) :
    (restore_from_session_files (save_with_session st fs0 (fun _ => true))
        initialAgentState).display_conversations = st.display_conversations ∧
    (restore_from_session_files (save_with_session st fs0 (fun _ => true))
        initialAgentState).full_context_conversations =
      st.full_context_conversations ∧
    (restore_from_session_files (save_with_session st fs0 (fun _ => true))
        initialAgentState).conversations = st.conversations ∧
    (restore_from_session_files (save_with_session st fs0 (fun _ => true))
        initialAgentState).tool_conversations = st.tool_conversations := by
  have hsave : save_with_session st fs0 (fun _ => true) =
      ⟨some (Json.arr st.conversations), some st.display_conversations,
       some st.full_context_conversations, some (Json.arr st.tool_conversations),
       some st.tool_execute_conversations,
       some (Json.obj (match st.team.model with
         | some m => dumpAll m
         | none => st.team.team_context))⟩ := by
    unfold save_with_session save_team_context
    rfl
  rw [hsave]
  unfold restore_from_session_files
  dsimp only
  obtain ⟨h1, h2, h3, h4⟩ := load_team_context_projections
    ⟨some (Json.arr st.conversations), some st.display_conversations,
     some st.full_context_conversations, some (Json.arr st.tool_conversations),
     some st.tool_execute_conversations,
     some (Json.obj (match st.team.model with
       | some m => dumpAll m
       | none => st.team.team_context))⟩
    { initialAgentState with
        display_conversations := st.display_conversations,
        full_context_conversations := st.full_context_conversations,
        tool_conversations := st.tool_conversations,
        conversations := st.conversations }
  exact ⟨h3, h4, h1, h2⟩

/-! ## Claim C9: per-server failure isolation in the MCP manager -/

theorem connect_to_server_status (m : MCPManager) (name : String)
    (out : ServerOutcome) :
    (m.connect_to_server name out).1.server_status =
      Dict.assign name out.isOk m.server_status ∧
    (m.connect_to_server name out).2 = out.isOk := by
  rcases out with _ | _ | ts <;>
    simp [MCPManager.connect_to_server, ServerOutcome.isOk]

theorem connect_to_server_available (m : MCPManager) (name : String)
    (out : ServerOutcome) :
    (m.connect_to_server name out).1.available_tools =
      m.available_tools ++ out.toolsOf := by
  rcases out with _ | _ | ts <;>
    simp [MCPManager.connect_to_server, ServerOutcome.toolsOf]

theorem connect_loop_available :
    ∀ (servers : List (String × ServerOutcome)) (m : MCPManager)
      (results : List (String × Bool)),
      (m.connect_to_servers_loop results servers).1.available_tools =
        m.available_tools ++ toolsOfServers servers := by
  intro servers
  induction servers with
  | nil =>
    intro m results
    simp [MCPManager.connect_to_servers_loop, toolsOfServers]
  | cons s rest ih =>
    intro m results
    rw [MCPManager.connect_to_servers_loop]
    rw [ih]
    rw [connect_to_server_available]
    rw [toolsOfServers, List.append_assoc]

theorem connect_loop_preserves :
    ∀ (servers : List (String × ServerOutcome)) (m : MCPManager)
      (results : List (String × Bool)) (k : String),
      k ∉ servers.map Prod.fst →
      Dict.lookup k (m.connect_to_servers_loop results servers).2 =
        Dict.lookup k results ∧
      Dict.lookup k (m.connect_to_servers_loop results servers).1.server_status =
        Dict.lookup k m.server_status := by
  intro servers
  induction servers with
  | nil =>
    intro m results k _
    exact ⟨rfl, rfl⟩
  | cons s rest ih =>
    intro m results k hk
    have hk1 : k ≠ s.1 := by
      intro hh
      exact hk (by simp [hh])
    have hk2 : k ∉ rest.map Prod.fst := by
      intro hh
      exact hk (by simp [hh])
    rw [MCPManager.connect_to_servers_loop]
    obtain ⟨hr, hs⟩ := ih (m.connect_to_server s.1 s.2).1
      (Dict.assign s.1 (m.connect_to_server s.1 s.2).2 results) k hk2
    refine ⟨?_, ?_⟩
    · rw [hr, Dict.lookup_assign_ne hk1]
    · rw [hs, (connect_to_server_status m s.1 s.2).1, Dict.lookup_assign_ne hk1]

theorem connect_loop_status :
    ∀ (servers : List (String × ServerOutcome)),
      (servers.map Prod.fst).Nodup →
      ∀ (m : MCPManager) (results : List (String × Bool)) (p : String × ServerOutcome),
        p ∈ servers →
        Dict.lookup p.1 (m.connect_to_servers_loop results servers).2 =
          some p.2.isOk ∧
        Dict.lookup p.1 (m.connect_to_servers_loop results servers).1.server_status =
          some p.2.isOk := by
  intro servers
  induction servers with
  | nil =>
    intro _ m results p hp
    simp at hp
  | cons s rest ih =>
    intro hnd m results p hp
    have hnd1 : s.1 ∉ rest.map Prod.fst := (List.nodup_cons.mp (by simpa using hnd)).1
    have hnd2 : (rest.map Prod.fst).Nodup := (List.nodup_cons.mp (by simpa using hnd)).2
    rcases List.mem_cons.mp hp with hp0 | hp1
    · subst hp0
      rw [MCPManager.connect_to_servers_loop]
      obtain ⟨hr, hs⟩ := connect_loop_preserves rest (m.connect_to_server p.1 p.2).1
        (Dict.assign p.1 (m.connect_to_server p.1 p.2).2 results) p.1 hnd1
      refine ⟨?_, ?_⟩
      · rw [hr, Dict.lookup_assign_self, (connect_to_server_status m p.1 p.2).2]
      · rw [hs, (connect_to_server_status m p.1 p.2).1, Dict.lookup_assign_self]
    · rw [MCPManager.connect_to_servers_loop]
      exact ih hnd2 _ _ p hp1

/-- C9 (confirmed): over any configuration of servers (unique names, as
JSON object keys are) with any mix of successful and failed handshakes,
`connect_to_servers` completes without raising; afterwards the imported
tool set is exactly the concatenation, in configuration order, of the
tools discovered from the successful servers, and the per-server maps —
both the returned results and the manager's status map — mark every
successful server `True` and every failed server `False`; every
configured server is attempted regardless of earlier failures. -/
theorem connect_to_servers_isolates_failures
    (servers : List (String × ServerOutcome))
    (hnd : (servers.map Prod.fst).Nodup) :
    (MCPManager.empty.connect_to_servers servers).1.available_tools =
      toolsOfServers servers ∧
    (∀ p ∈ servers,
      Dict.lookup p.1 (MCPManager.empty.connect_to_servers servers).2 =
        some p.2.isOk ∧
      Dict.lookup p.1
          (MCPManager.empty.connect_to_servers servers).1.server_status =
        some p.2.isOk) := by
  unfold MCPManager.connect_to_servers
  refine ⟨?_, ?_⟩
  · rw [connect_loop_available servers MCPManager.empty []]
    rfl
  · intro p hp
    exact connect_loop_status servers hnd MCPManager.empty [] p hp

/-- C9 witness: three configured servers of which the second fails —
the tool set is the two successful servers' tools in order, the failed
server is marked `False` and the successful ones `True`. -/
theorem connect_to_servers_isolates_failures_witness :
    (MCPManager.empty.connect_to_servers
        [("alpha", .ok [⟨"t1", "d1", Json.null⟩]),
         ("beta", .connectFail),
         ("gamma", .ok [⟨"t2", "d2", Json.null⟩])]).1.available_tools =
      [⟨"t1", "d1", Json.null⟩, ⟨"t2", "d2", Json.null⟩] ∧
    Dict.lookup "beta"
        (MCPManager.empty.connect_to_servers
          [("alpha", .ok [⟨"t1", "d1", Json.null⟩]),
           ("beta", .connectFail),
           ("gamma", .ok [⟨"t2", "d2", Json.null⟩])]).2 = some false ∧
    Dict.lookup "gamma"
        (MCPManager.empty.connect_to_servers
          [("alpha", .ok [⟨"t1", "d1", Json.null⟩]),
           ("beta", .connectFail),
           ("gamma", .ok [⟨"t2", "d2", Json.null⟩])]).2 = some true := by
  have h := connect_to_servers_isolates_failures
    [("alpha", .ok [⟨"t1", "d1", Json.null⟩]),
     ("beta", .connectFail),
     ("gamma", .ok [⟨"t2", "d2", Json.null⟩])] (by decide)
  refine ⟨h.1.trans (by rfl), ?_, ?_⟩
  · exact (h.2 ("beta", .connectFail)
      (List.mem_cons_of_mem _ (List.mem_cons_self _ _))).1
  · exact (h.2 ("gamma", .ok [⟨"t2", "d2", Json.null⟩])
      (List.mem_cons_of_mem _ (List.mem_cons_of_mem _ (List.mem_cons_self _ _)))).1

/-! ## Claim C10: base64 auto-decoding in `add_message` -/

/-- C10 (confirmed): a message whose content is at least 50 characters,
contains none of the separator characters, whose stripped form matches
the base64 regex, and which base64-decodes to valid UTF-8 text, is
recorded in every projection as the decoded text (the per-role dispatch
receives the decoded string); any content failing one of these conditions
is recorded verbatim. -/
theorem add_message_decodes_base64 (st : AgentState)
    (role content streamPrefix : String)
    (hrole : role ∈ ["user", "assistant", "tool", "react"]) :
    (∀ (bytes : List Nat) (cs : List Char),
      50 ≤ content.length →
      (∀ c ∈ content.data, c ∉ sepChars) →
      b64PatternMatch (pyStrip content) = true →
      b64Decode (pyStrip content) = some bytes →
      utf8Decode bytes = some cs →
      add_message st role content streamPrefix =
        some (dispatchMessage st role (String.mk cs) streamPrefix)) ∧
    ((content.length < 50 ∨ (∃ c ∈ content.data, c ∈ sepChars) ∨
      b64PatternMatch (pyStrip content) = false ∨
      b64Decode (pyStrip content) = none ∨
      (∃ bytes, b64Decode (pyStrip content) = some bytes ∧ utf8Decode bytes = none)) →
      add_message st role content streamPrefix =
        some (dispatchMessage st role content streamPrefix)) := by
  constructor
  · intro bytes cs h50 hsep hpat hdec hutf
    have hde : decode_if_base64 content = String.mk cs := by
      unfold decode_if_base64
      rw [if_neg (by
        simp only [Bool.or_eq_true, decide_eq_true_eq, List.any_eq_true, not_or]
        push_neg
        exact ⟨by omega, fun c hc => hsep c hc⟩)]
      rw [if_neg (by simp [hpat])]
      rw [hdec]
      dsimp only
      rw [hutf]
    unfold add_message
    rw [if_pos hrole, hde]
  · intro hfail
    have hde : decode_if_base64 content = content := by
      unfold decode_if_base64
      rcases hfail with h | h | h | h | h
      · rw [if_pos (by simp only [Bool.or_eq_true, decide_eq_true_eq]; exact Or.inl h)]
      · obtain ⟨c, hc, hcs⟩ := h
        rw [if_pos (by
          simp only [Bool.or_eq_true, decide_eq_true_eq, List.any_eq_true]
          exact Or.inr ⟨c, hc, by simpa using hcs⟩)]
      · by_cases hc1 : (decide (content.length < 50) ||
            content.data.any (fun c => decide (c ∈ sepChars))) = true
        · rw [if_pos hc1]
        · rw [if_neg hc1, if_pos (by simp [h])]
      · by_cases hc1 : (decide (content.length < 50) ||
            content.data.any (fun c => decide (c ∈ sepChars))) = true
        · rw [if_pos hc1]
        · rw [if_neg hc1]
          by_cases hc2 : b64PatternMatch (pyStrip content) = true
          · rw [if_neg (by simp [hc2]), h]
          · rw [if_pos (by simpa using hc2)]
      · obtain ⟨bytes, hb, hu⟩ := h
        by_cases hc1 : (decide (content.length < 50) ||
            content.data.any (fun c => decide (c ∈ sepChars))) = true
        · rw [if_pos hc1]
        · rw [if_neg hc1]
          by_cases hc2 : b64PatternMatch (pyStrip content) = true
          · rw [if_neg (by simp [hc2]), hb]
            dsimp only
            rw [hu]
          · rw [if_pos (by simpa using hc2)]
    unfold add_message
    rw [if_pos hrole, hde]

/-- C10 witness: a concrete 60-character base64 content is recorded as its
decoded text. -/
theorem add_message_decodes_base64_witness :
    add_message initialAgentState "user"
        "VGhlIHF1aWNrIGJyb3duIGZveCBqdW1wcyBvdmVyIHRoZSBsYXp5IGRvZw==" "" =
      some (dispatchMessage initialAgentState "user"
        "The quick brown fox jumps over the lazy dog" "") := by
  have h := (add_message_decodes_base64 initialAgentState "user"
      "VGhlIHF1aWNrIGJyb3duIGZveCBqdW1wcyBvdmVyIHRoZSBsYXp5IGRvZw==" ""
      (by simp)).1
    [84, 104, 101, 32, 113, 117, 105, 99, 107, 32, 98, 114, 111, 119, 110, 32,
     102, 111, 120, 32, 106, 117, 109, 112, 115, 32, 111, 118, 101, 114, 32,
     116, 104, 101, 32, 108, 97, 122, 121, 32, 100, 111, 103]
    ['T', 'h', 'e', ' ', 'q', 'u', 'i', 'c', 'k', ' ', 'b', 'r', 'o', 'w', 'n',
     ' ', 'f', 'o', 'x', ' ', 'j', 'u', 'm', 'p', 's', ' ', 'o', 'v', 'e', 'r',
     ' ', 't', 'h', 'e', ' ', 'l', 'a', 'z', 'y', ' ', 'd', 'o', 'g']
    (by decide) (by decide) (by rfl) (by rfl) (by rfl)
  rw [h]

end EchoAgent
